import Mathlib

/-!
Shallow embedding of the physics-engine core of the repository:
`Engine` from src/unnamed/part_000, `Circle` and `EntityManager` from
src/src.  JavaScript numbers are modelled by `ℝ`; `Math.sqrt`,
`Math.acos`, `Math.abs` and `Math.sign` by `Real.sqrt`, `Real.arccos`,
`abs` and `Real.sign`.  `Entity.ts`, `Ground.ts`, `Square.ts`, `Rope.ts`
and `utils.ts` are not under src/; the definitions taken from them are
marked `Modelled from the spec` and follow spec.md.
-/

namespace Mario

/-- Observable notifications dispatched by the engine: the `hitEntity`,
`hitGround` and `update` custom events of src/unnamed/part_000. -/
inductive Event where
  | hitEntity (source target : String)
  | hitGround (entity ground : String)
  | updateEntity (name : String)
  deriving DecidableEq

/-- Modelled from the spec: `Entity.ts` is missing from src/.  A link
(spec §3): target entity name, rest distance and link stiffness, matching
the `data.name`, `data.distance`, `data.stiff` reads in `Engine.update`. -/
structure Target where
  name : String
  distance : ℝ
  stiff : ℝ

/-- Modelled from the spec: `Entity.ts` is missing from src/.  A point
mass (spec §3) with exactly the fields read and written by `Engine`:
position, previous position, velocity, rotation, rotational velocity,
radius (`size`), mass, stiffness, constraint links (`targets`) and the
owning body's name (`parent`). -/
structure Entity where
  name : String
  posX : ℝ
  posY : ℝ
  prePosX : ℝ
  prePosY : ℝ
  speedX : ℝ
  speedY : ℝ
  rotate : ℝ
  rotateSpeed : ℝ
  size : ℝ
  mass : ℝ
  stiff : ℝ
  targets : List Target
  parent : String

/-- Modelled from the spec: spec §3 defines `inverseMass` as `0` when
`mass == 0` and `1/mass` otherwise. -/
noncomputable def Entity.invMass (e : Entity) : ℝ :=
  if e.mass = 0 then 0 else 1 / e.mass

/-- Modelled from the spec: spec §4.7 step 1, save the current position
as the previous position (`entity.savePosition()` in `updatePosition`). -/
def Entity.savePosition (e : Entity) : Entity :=
  { e with prePosX := e.posX, prePosY := e.posY }

/-- Modelled from the spec: spec §4.1, remove a link by target name,
a no-op when absent (`entity.removeTarget(data.name)` in `Engine.update`). -/
def Entity.removeTarget (e : Entity) (name : String) : Entity :=
  { e with targets := e.targets.filter (fun t => t.name != name) }

/-- Modelled from the spec: `Ground.ts` is missing from src/.  An
immovable line segment with thickness (spec §3), with the fields read by
`Engine` (`startX`, `startY`, `endX`, `endY`, `size`). -/
structure Ground where
  name : String
  startX : ℝ
  startY : ℝ
  endX : ℝ
  endY : ℝ
  size : ℝ

/-- Modelled from the spec: `Ground.ts` is missing from src/.  Spec §4.3
and §4.9: closest-point projection of a point onto the ground segment. -/
noncomputable def Ground.solvePosition (g : Ground) (x y : ℝ) : ℝ × ℝ :=
  let dx := g.endX - g.startX
  let dy := g.endY - g.startY
  let t := ((x - g.startX) * dx + (y - g.startY) * dy) / (dx ^ 2 + dy ^ 2)
  let t := max 0 (min 1 t)
  (g.startX + t * dx, g.startY + t * dy)

/-- `Engine.solveRotate` (src/unnamed/part_000 lines 446-464). -/
noncomputable def solveRotate (source target : Entity) : Entity × Entity :=
  let vecX := target.posX - source.posX
  let vecY := target.posY - source.posY
  let vecSize := Real.sqrt (vecX ^ 2 + vecY ^ 2)
  let sourceSpeed := Real.sqrt (source.speedX ^ 2 + source.speedY ^ 2)
  let angle := vecX * (-source.speedY) + vecY * source.speedX
  let rotate :=
    Real.arccos ((vecX * source.speedX + vecY * source.speedY) / (vecSize * sourceSpeed))
      * (180 / Real.pi)
  if angle > 0 then
    ({ source with rotateSpeed := source.rotateSpeed - rotate / 50 },
     { target with rotateSpeed := target.rotateSpeed + rotate / 50 })
  else if angle < 0 then
    ({ source with rotateSpeed := source.rotateSpeed + rotate / 50 },
     { target with rotateSpeed := target.rotateSpeed - rotate / 50 })
  else
    (source, target)

/-- `Engine.solveGroundRotate` (src/unnamed/part_000 lines 472-488). -/
noncomputable def solveGroundRotate (entity : Entity) (posX posY : ℝ) : Entity :=
  let vecX := posX - entity.posX
  let vecY := posY - entity.posY
  let vecSize := Real.sqrt (vecX ^ 2 + vecY ^ 2)
  let entitySpeed := Real.sqrt (entity.speedX ^ 2 + entity.speedY ^ 2)
  let angle := vecX * (-entity.speedY) + vecY * entity.speedX
  let rotate :=
    Real.arccos ((vecX * entity.speedX + vecY * entity.speedY) / (vecSize * entitySpeed))
      * (180 / Real.pi)
  if angle > 0 then { entity with rotateSpeed := entity.rotateSpeed + rotate / 50 }
  else if angle < 0 then { entity with rotateSpeed := entity.rotateSpeed - rotate / 50 }
  else entity

/-- `Engine.solvePosition` (src/unnamed/part_000 lines 351-384): body-body
position correction, its `hitEntity` event returned in the list. -/
noncomputable def solvePosition (source target : Entity) :
    (Entity × Entity) × List Event :=
  let totalMass := source.invMass + target.invMass
  if totalMass = 0 then ((source, target), [])
  else
    let vecX := target.posX - source.posX
    let vecY := target.posY - source.posY
    if |vecX| ≥ source.size + target.size ∧ |vecY| ≥ source.size + target.size then
      ((source, target), [])
    else
      let distance := Real.sqrt (vecX ^ 2 + vecY ^ 2)
      if distance ≤ source.size + target.size then
        let move := (distance - (source.size + target.size))
          / (distance * totalMass + 0.000001) * source.stiff
        let vecX := vecX * move
        let vecY := vecY * move
        let source' := { source with
          posX := source.posX + vecX * source.invMass
          posY := source.posY + vecY * source.invMass }
        let target' := { target with
          posX := target.posX - vecX * target.invMass
          posY := target.posY - vecY * target.invMass }
        (solveRotate source' target', [Event.hitEntity source.name target.name])
      else ((source, target), [])

/-- `Engine.solveGroundPosition` (src/unnamed/part_000 lines 391-422). -/
noncomputable def solveGroundPosition (entity : Entity) (ground : Ground) :
    Entity × List Event :=
  if entity.invMass = 0 then (entity, [])
  else
    let p := ground.solvePosition entity.posX entity.posY
    let vecX := p.1 - entity.posX
    let vecY := p.2 - entity.posY
    if |vecX| ≥ entity.size + |ground.startX - ground.endX| + ground.size ∧
       |vecY| ≥ entity.size + |ground.startY - ground.endY| + ground.size then
      (entity, [])
    else
      let distance := Real.sqrt (vecX ^ 2 + vecY ^ 2)
      if distance ≤ entity.size + ground.size / 2 then
        let move := (distance - (entity.size + ground.size / 2))
          / (distance * entity.invMass + 0.000001) * entity.stiff
        let vecX := vecX * move
        let vecY := vecY * move
        let entity' := { entity with
          posX := entity.posX + vecX * entity.invMass
          posY := entity.posY + vecY * entity.invMass }
        (solveGroundRotate entity' p.1 p.2, [Event.hitGround entity.name ground.name])
      else (entity, [])

/-- `Engine.solveConnect` (src/unnamed/part_000 lines 497-515): distance
constraint resolution, weighted by raw mass on both sides. -/
noncomputable def solveConnect (source target : Entity)
    (connectDistance connectStiff : ℝ) : Entity × Entity :=
  let totalMass := source.mass + target.mass
  if totalMass = 0 then (source, target)
  else
    let vecX := target.posX - source.posX
    let vecY := target.posY - source.posY
    let distance := Real.sqrt (vecX ^ 2 + vecY ^ 2)
    let move := (distance - connectDistance)
      / (distance * totalMass + 0.000001) * connectStiff
    let vecX := vecX * move
    let vecY := vecY * move
    ({ source with
        posX := source.posX + vecX * source.mass
        posY := source.posY + vecY * source.mass },
     { target with
        posX := target.posX - vecX * target.mass
        posY := target.posY - vecY * target.mass })

/-- `Engine.solveSpeed` (src/unnamed/part_000 lines 428-439): linear
friction damping followed by the 500 deg/s rotational clamp. -/
noncomputable def solveSpeed (pps friction : ℝ) (e : Entity) : Entity :=
  let rate := friction * e.size * e.mass
  let sx := e.speedX - e.speedX * rate * (1 / pps)
  let sy := e.speedY - e.speedY * rate * (1 / pps)
  let rs := e.rotateSpeed - e.rotateSpeed * rate * (1 / pps)
  let rs := if |rs| > 500 then Real.sign rs * 500 else rs
  { e with speedX := sx, speedY := sy, rotateSpeed := rs }

/-- `Engine.updateSpeed` (src/unnamed/part_000 lines 521-528): velocity
reconstruction from the position delta, plus gravity for dynamic bodies. -/
noncomputable def updateSpeed (pps gravity : ℝ) (e : Entity) : Entity :=
  let sx := (e.posX - e.prePosX) / (1 / pps)
  let sy := (e.posY - e.prePosY) / (1 / pps)
  let sy := if e.mass ≠ 0 then sy + gravity * (1 / pps) else sy
  { e with speedX := sx, speedY := sy }

/-- `Engine.updatePosition` (src/unnamed/part_000 lines 534-539). -/
noncomputable def updatePosition (pps : ℝ) (e : Entity) : Entity :=
  let e := e.savePosition
  { e with
      posX := e.posX + e.speedX * (1 / pps)
      posY := e.posY + e.speedY * (1 / pps) }

/-- `Engine.updateRotate` (src/unnamed/part_000 lines 545-547). -/
noncomputable def updateRotate (pps : ℝ) (e : Entity) : Entity :=
  { e with rotate := e.rotate + e.rotateSpeed * (1 / pps) }

/-- Lookup of an entity by name in the pool of all entities, as
`Engine.get("entity", name)` does over `this.entities`. -/
def findEntity (pool : List Entity) (n : String) : Option Entity :=
  pool.find? (fun e => e.name == n)

/-- Write an updated entity back into the pool.  The JavaScript solvers
mutate a shared object; entity names are globally unique (spec §3
invariant), so this is replacement of the entity with that name. -/
def setEntity (pool : List Entity) (e : Entity) : List Entity :=
  pool.map (fun x => if x.name = e.name then e else x)

/-- Phase 1 of `Engine.update` (lines 185-188): integrate every entity's
position and rotation. -/
noncomputable def phase1 (pps : ℝ) (pool : List Entity) : List Entity :=
  pool.map (fun e => updateRotate pps (updatePosition pps e))

/-- The ground loop of phase 2 of `Engine.update` (lines 191-193) for the
entity named `n`. -/
noncomputable def runGrounds (grounds : List Ground)
    (st : List Entity × List Event) (n : String) : List Entity × List Event :=
  grounds.foldl
    (fun st g =>
      match findEntity st.1 n with
      | some e =>
        let r := solveGroundPosition e g
        (setEntity st.1 r.1, st.2 ++ r.2)
      | none => st)
    st

/-- The body-body loop of phase 2 of `Engine.update` (lines 195-199) for
the entity named `n`: every other entity of the snapshot `names`, the
pair skipped exactly when the two names coincide. -/
noncomputable def runPairs (names : List String)
    (st : List Entity × List Event) (n : String) : List Entity × List Event :=
  names.foldl
    (fun st m =>
      if n = m then st
      else
        match findEntity st.1 n, findEntity st.1 m with
        | some s, some t =>
          let r := solvePosition s t
          (setEntity (setEntity st.1 r.1.1) r.1.2, st.2 ++ r.2)
        | _, _ => st)
    st

/-- One link of the constraint loop of `Engine.update` (lines 201-206):
resolve the target by name; prune the link when the lookup fails,
otherwise run `solveConnect`. -/
noncomputable def runLink (pool : List Entity) (n : String) (d : Target) :
    List Entity :=
  match findEntity pool d.name with
  | none =>
    match findEntity pool n with
    | some cur => setEntity pool (cur.removeTarget d.name)
    | none => pool
  | some _ =>
    match findEntity pool n, findEntity pool d.name with
    | some s, some t =>
      let r := solveConnect s t d.distance d.stiff
      setEntity (setEntity pool r.1) r.2
    | _, _ => pool

/-- The constraint loop of phase 2 of `Engine.update` (lines 201-206) for
the entity named `n`, iterating the snapshot of its link list. -/
noncomputable def resolveLinks (pool : List Entity) (n : String) :
    List Entity :=
  match findEntity pool n with
  | none => pool
  | some e => e.targets.foldl (fun p d => runLink p n d) pool

/-- Phase 2 of `Engine.update` (lines 190-207): per entity, resolve
against every ground, against every other entity, then every link.
`solveConnect` dispatches no event, so the constraint loop contributes
none. -/
noncomputable def phase2 (grounds : List Ground) (pool : List Entity) :
    List Entity × List Event :=
  let names := pool.map Entity.name
  names.foldl
    (fun st n =>
      let st := runGrounds grounds st n
      let st := runPairs names st n
      (resolveLinks st.1 n, st.2))
    (pool, [])

/-- Phase 3 of `Engine.update` (lines 209-218) for one entity:
`updateSpeed` then `solveSpeed`. -/
noncomputable def phase3Entity (pps gravity friction : ℝ) (e : Entity) : Entity :=
  solveSpeed pps friction (updateSpeed pps gravity e)

/-- Phase 3 of `Engine.update` (lines 209-218): velocity reconstruction,
gravity, damping and the per-entity `update` event. -/
noncomputable def phase3 (pps gravity friction : ℝ) (pool : List Entity) :
    List Entity × List Event :=
  (pool.map (phase3Entity pps gravity friction),
   pool.map (fun e => Event.updateEntity e.name))

/-- Phases 1-3 of `Engine.update` over the entity pool.  Phase 4
(out-of-bounds eviction, lines 220-226) removes whole bodies from the
world and never moves an entity, so it is not part of the entity-pool
step. -/
noncomputable def tick (pps gravity friction : ℝ) (grounds : List Ground)
    (pool : List Entity) : List Entity × List Event :=
  let p1 := phase1 pps pool
  let r2 := phase2 grounds p1
  let r3 := phase3 pps gravity friction r2.1
  (r3.1, r2.2 ++ r3.2)

/-- Iterated ticks. -/
noncomputable def ticks (pps gravity friction : ℝ) (grounds : List Ground) :
    Nat → List Entity → List Entity
  | 0, pool => pool
  | n + 1, pool => ticks pps gravity friction grounds n (tick pps gravity friction grounds pool).1

/-- Modelled from the spec: `Entity.ts` is missing from src/.  The
`EntityOption` constructor record visible in `Circle.ts` (`create` call)
and spec §4.1: optional name, explicit position and rest attributes,
optional velocity, rotation, links and owner. -/
structure EntityOption where
  name : Option String := none
  posX : ℝ
  posY : ℝ
  size : ℝ
  mass : ℝ
  stiff : ℝ
  speedX : Option ℝ := none
  speedY : Option ℝ := none
  rotate : Option ℝ := none
  rotateSpeed : Option ℝ := none
  targets : Option (List Target) := none
  parent : Option String := none

/-- Modelled from the spec: entity construction (`new Entity(option)` in
`EntityManager`).  `createId` is `Math.random`-based in utils.ts, so the
auto-generated name is supplied as the `fresh` argument; the previous
position starts at the position. -/
def mkEntity (fresh : String) (o : EntityOption) : Entity :=
  { name := o.name.getD fresh
    posX := o.posX
    posY := o.posY
    prePosX := o.posX
    prePosY := o.posY
    speedX := o.speedX.getD 0
    speedY := o.speedY.getD 0
    rotate := o.rotate.getD 0
    rotateSpeed := o.rotateSpeed.getD 0
    size := o.size
    mass := o.mass
    stiff := o.stiff
    targets := o.targets.getD []
    parent := o.parent.getD "" }

/-- Modelled from the spec: `Entity.toJSON`, flattening an entity to its
constructor attributes (spec §6); the ephemeral previous position is not
part of the record. -/
def Entity.toJSON (e : Entity) : EntityOption :=
  { name := some e.name
    posX := e.posX
    posY := e.posY
    size := e.size
    mass := e.mass
    stiff := e.stiff
    speedX := some e.speedX
    speedY := some e.speedY
    rotate := some e.rotate
    rotateSpeed := some e.rotateSpeed
    targets := some e.targets
    parent := some e.parent }

/-- The spawn option record.  `Engine.spawn` takes the TypeScript union
`CircleOption | GroundOption | SquareOption | RopeOption` and each branch
reads its own subset of fields after a cast, so the union is modelled as
one record carrying every field; `name = ""` stands for the absent
(falsy) name that `spawn` replaces with a generated id. -/
structure SpawnOption where
  name : String := ""
  posX : ℝ := 0
  posY : ℝ := 0
  size : ℝ := 0
  mass : ℝ := 0
  stiff : ℝ := 0
  speedX : Option ℝ := none
  speedY : Option ℝ := none
  color : Option String := none
  subColor : Option String := none
  image : Option String := none
  script : Option String := none
  entities : List EntityOption := []
  startX : ℝ := 0
  startY : ℝ := 0
  endX : ℝ := 0
  endY : ℝ := 0

/-- A stored composite body: the common data of `Circle`, `Square` and
`Rope` (`EntityManager` subclasses) with its `type` tag, as read by
`Engine.export`, `Engine.update` and `Engine.deSpawn`. -/
structure WObject where
  type : String
  name : String
  size : ℝ
  mass : ℝ
  stiff : ℝ
  color : String
  subColor : String
  image : Option String
  script : String
  entities : List Entity

/-- `EntityManager.getPosition` (src/src/EntityManager.ts lines 42-47):
unweighted mean of the member entities' positions. -/
noncomputable def WObject.getPosition (o : WObject) : ℝ × ℝ :=
  (o.entities.foldl (fun total e => total + e.posX) 0 / o.entities.length,
   o.entities.foldl (fun total e => total + e.posY) 0 / o.entities.length)

/-- `EntityManager.getSpeed` (src/src/EntityManager.ts lines 49-54). -/
noncomputable def WObject.getSpeed (o : WObject) : ℝ × ℝ :=
  (o.entities.foldl (fun total e => total + e.speedX) 0 / o.entities.length,
   o.entities.foldl (fun total e => total + e.speedY) 0 / o.entities.length)

/-- `EntityManager.getRotate` (src/src/EntityManager.ts lines 56-58). -/
noncomputable def WObject.getRotate (o : WObject) : ℝ :=
  o.entities.foldl (fun total e => total + e.rotate) 0 / o.entities.length

/-- The body constructor shared by the three kinds: `Circle.constructor`
(src/src/Objects/Circle.ts lines 93-119) transcribed, parameterised by
the `type` tag; `Square.ts` and `Rope.ts` are missing from src/ and are
modelled from spec §4.2, which gives them the same degrade-to-single-
entity construction from an explicit entity list.  `ids` supplies the
`createId` results for auto-named entities. -/
def mkObjectOfType (type : String) (ids : Nat → String) (o : SpawnOption) :
    WObject :=
  let entities :=
    match o.entities with
    | [] =>
      [mkEntity (ids 0)
        { posX := o.posX, posY := o.posY, size := o.size, mass := o.mass,
          stiff := o.stiff, speedX := o.speedX, speedY := o.speedY,
          parent := some o.name }]
    | es => es.enum.map (fun p => mkEntity (ids p.1) p.2)
  { type := type
    name := o.name
    size := o.size
    mass := o.mass
    stiff := o.stiff
    color := o.color.getD "red"
    subColor := o.subColor.getD "black"
    image := o.image
    script := o.script.getD ""
    entities := entities }

/-- `new Circle(option)` (src/src/Objects/Circle.ts). -/
def mkCircle (ids : Nat → String) (o : SpawnOption) : WObject :=
  mkObjectOfType "circle" ids o

/-- Modelled from the spec: `Square.ts` is missing from src/ (spec §4.2,
kind tag `square`). -/
def mkSquare (ids : Nat → String) (o : SpawnOption) : WObject :=
  mkObjectOfType "square" ids o

/-- Modelled from the spec: `Rope.ts` is missing from src/ (spec §4.2,
kind tag `rope`). -/
def mkRope (ids : Nat → String) (o : SpawnOption) : WObject :=
  mkObjectOfType "rope" ids o

/-- `Circle.toJSON` (src/src/Objects/Circle.ts): flatten the body to its
constructor attributes, position and speed taken as the aggregate means;
spec §6 gives the same flattening for squares, ropes. -/
noncomputable def WObject.toJSON (w : WObject) : SpawnOption :=
  { name := w.name
    posX := w.getPosition.1
    posY := w.getPosition.2
    size := w.size
    mass := w.mass
    stiff := w.stiff
    speedX := some w.getSpeed.1
    speedY := some w.getSpeed.2
    color := some w.color
    subColor := some w.subColor
    image := w.image
    script := some w.script
    entities := w.entities.map Entity.toJSON }

/-- Modelled from the spec: `new Ground(option)`; `Ground.ts` is missing
from src/ (spec §3). -/
def mkGround (o : SpawnOption) : Ground :=
  { name := o.name, startX := o.startX, startY := o.startY,
    endX := o.endX, endY := o.endY, size := o.size }

/-- Modelled from the spec: `Ground.toJSON`, flattening a ground to its
constructor attributes (spec §6). -/
def Ground.toJSON (g : Ground) : SpawnOption :=
  { name := g.name, startX := g.startX, startY := g.startY,
    endX := g.endX, endY := g.endY, size := g.size }

/-- The engine's world state: the `grounds` and `objects` maps (JS string
keyed objects, insertion ordered) and the simulation parameters. -/
structure World where
  pps : ℝ
  gravity : ℝ
  friction : ℝ
  grounds : List (String × Ground)
  objects : List (String × WObject)

/-- Insertion-ordered map write, as assignment to a JS object key. -/
def putKey {α : Type} (m : List (String × α)) (k : String) (v : α) :
    List (String × α) :=
  if m.any (fun p => p.1 == k) then
    m.map (fun p => if p.1 == k then (k, v) else p)
  else m ++ [(k, v)]

/-- Map read, as indexing a JS object. -/
def getKey {α : Type} (m : List (String × α)) (k : String) : Option α :=
  (m.find? (fun p => p.1 == k)).map Prod.snd

/-- Map delete, as the JS `delete` operator. -/
def delKey {α : Type} (m : List (String × α)) (k : String) :
    List (String × α) :=
  m.filter (fun p => p.1 != k)

/-- `Engine.spawn` (src/unnamed/part_000 lines 277-299).  `ids i` models
the random `createId(8)` for the `i`-th option of the batch; an unknown
kind matches no branch and the world is untouched. -/
def spawn (ids : Nat → String) (type : String) (objects : List SpawnOption)
    (w : World) : World :=
  objects.enum.foldl
    (fun w p =>
      let o := p.2
      let name := if o.name = "" then ids p.1 else o.name
      let o := { o with name := name }
      if type = "circle" then
        { w with objects := putKey w.objects name (mkCircle ids o) }
      else if type = "square" then
        { w with objects := putKey w.objects name (mkSquare ids o) }
      else if type = "rope" then
        { w with objects := putKey w.objects name (mkRope ids o) }
      else if type = "ground" then
        { w with grounds := putKey w.grounds name (mkGround o) }
      else w)
    w

/-- `Engine.deSpawn` (src/unnamed/part_000 lines 306-328).  For the three
body kinds `get` reads `this.objects[name]` without looking at the stored
kind; for `ground` it reads `this.grounds[name]`; a failed lookup
returns without touching anything. -/
def deSpawn (type name : String) (w : World) : World :=
  if type = "circle" ∨ type = "square" ∨ type = "rope" then
    match getKey w.objects name with
    | some _ => { w with objects := delKey w.objects name }
    | none => w
  else if type = "ground" then
    match getKey w.grounds name with
    | some _ => { w with grounds := delKey w.grounds name }
    | none => w
  else w

/-- `Engine.clear` (src/unnamed/part_000 lines 143-150). -/
def clear (force : Bool) (w : World) : World :=
  let w := { w with objects := ([] : List (String × WObject)) }
  if force then { w with grounds := ([] : List (String × Ground)) } else w

/-- The `ExportData` record (src/unnamed/part_000 lines 81-89): the
legacy `entity` field is optional, the per-kind lists and grounds as
produced by `Engine.export`. -/
structure ExportData where
  gravity : ℝ
  friction : ℝ
  entity : Option (List SpawnOption) := none
  circle : List SpawnOption
  square : List SpawnOption
  rope : List SpawnOption
  ground : List SpawnOption

/-- `Engine.export` (src/unnamed/part_000 lines 670-693), producing the
record that the source serialises with `JSON.stringify`. -/
noncomputable def exportW (w : World) : ExportData :=
  { gravity := w.gravity
    friction := w.friction
    circle := ((w.objects.map Prod.snd).filter
        (fun o => o.type == "circle")).map WObject.toJSON
    square := ((w.objects.map Prod.snd).filter
        (fun o => o.type == "square")).map WObject.toJSON
    rope := ((w.objects.map Prod.snd).filter
        (fun o => o.type == "rope")).map WObject.toJSON
    ground := w.grounds.map (fun p => Ground.toJSON p.2) }

/-- `Engine.import` (src/unnamed/part_000 lines 699-722).  Note the
source passes the kind string `"square"` when re-spawning `data.rope`
(line 716). -/
def importW (ids : Nat → String) (data : ExportData) (w : World) : World :=
  let w := { w with gravity := data.gravity, friction := data.friction }
  let w := clear true w
  let w := spawn ids "ground" data.ground w
  let w := spawn ids "circle" data.circle w
  let w := spawn ids "square" data.square w
  let w := spawn ids "square" data.rope w
  match data.entity with
  | some es => spawn ids "circle" es w
  | none => w

/-- A concrete entity used by several concrete evaluations: at rest at
the origin, unit radius, unit mass, stiffness 1, no links. -/
noncomputable def baseEntity : Entity :=
  { name := "e", posX := 0, posY := 0, prePosX := 0, prePosY := 0,
    speedX := 0, speedY := 0, rotate := 0, rotateSpeed := 0,
    size := 1, mass := 1, stiff := 1, targets := [], parent := "" }

/-- C6: if the centre gap on one axis alone exceeds the sum of the radii,
`solvePosition` changes neither entity in any field and emits no
body-collision event: either the conjunctive bounding-box early return
fires, or the distance test fails because the distance is at least the
single-axis gap. -/
theorem c6_axis_gap_rejects (s t : Entity)
    (h : s.size + t.size < |t.posX - s.posX| ∨ s.size + t.size < |t.posY - s.posY|) :
    solvePosition s t = ((s, t), []) := by
  unfold solvePosition
  dsimp only
  split_ifs with h1 h2 h3
  · rfl
  · rfl
  · exfalso
    have hd : s.size + t.size < Real.sqrt ((t.posX - s.posX) ^ 2 + (t.posY - s.posY) ^ 2) := by
      rcases h with h | h
      · calc s.size + t.size < |t.posX - s.posX| := h
          _ = Real.sqrt ((t.posX - s.posX) ^ 2) := (Real.sqrt_sq_eq_abs _).symm
          _ ≤ Real.sqrt ((t.posX - s.posX) ^ 2 + (t.posY - s.posY) ^ 2) :=
            Real.sqrt_le_sqrt (by nlinarith [sq_nonneg (t.posY - s.posY)])
      · calc s.size + t.size < |t.posY - s.posY| := h
          _ = Real.sqrt ((t.posY - s.posY) ^ 2) := (Real.sqrt_sq_eq_abs _).symm
          _ ≤ Real.sqrt ((t.posX - s.posX) ^ 2 + (t.posY - s.posY) ^ 2) :=
            Real.sqrt_le_sqrt (by nlinarith [sq_nonneg (t.posX - s.posX)])
    exact absurd h3 (not_le.mpr hd)
  · rfl

/-- C6 witness: two unit circles five units apart on the x-axis. -/
theorem c6_axis_gap_rejects_witness :
    (1 : ℝ) + 1 < |(5 : ℝ) - 0| ∧
      solvePosition baseEntity { baseEntity with name := "t", posX := 5 }
        = ((baseEntity, { baseEntity with name := "t", posX := 5 }), []) := by
  refine ⟨by norm_num, c6_axis_gap_rejects _ _ (Or.inl ?_)⟩
  show (1 : ℝ) + 1 < |(5 : ℝ) - 0|
  norm_num

/-- C4 amended: when the source entity's velocity is the zero vector the
arc-cosine argument of the rotational heuristic is an undefined 0/0, but
the sign gate `angle` evaluates to exactly zero, so neither branch of the
rotational update runs: `solveRotate` and `solveGroundRotate` return
their inputs unchanged and nothing reaches the stored rotational
velocity. -/
theorem c4_zero_velocity_skips_rotation (s t e : Entity) (px py : ℝ)
    (hx : s.speedX = 0) (hy : s.speedY = 0)
    (hex : e.speedX = 0) (hey : e.speedY = 0) :
    solveRotate s t = (s, t) ∧ solveGroundRotate e px py = e := by
  constructor
  · unfold solveRotate
    rw [hx, hy]
    norm_num
  · unfold solveGroundRotate
    rw [hex, hey]
    norm_num

/-- C4 witness: a zero-velocity source beside a target one unit away. -/
theorem c4_zero_velocity_skips_rotation_witness :
    baseEntity.speedX = 0 ∧ baseEntity.speedY = 0 ∧
      solveRotate baseEntity { baseEntity with name := "t", posX := 1 }
          = (baseEntity, { baseEntity with name := "t", posX := 1 }) ∧
      solveGroundRotate baseEntity 1 0 = baseEntity :=
  ⟨rfl, rfl,
    (c4_zero_velocity_skips_rotation baseEntity _ baseEntity 1 0 rfl rfl rfl rfl).1,
    (c4_zero_velocity_skips_rotation baseEntity baseEntity baseEntity 1 0 rfl rfl rfl rfl).2⟩

/-- C4 counterexample: a concrete zero-velocity contact.  The claim says
the stored rotational velocity becomes not-a-number rather than staying
unchanged; in fact after both `solveRotate` and `solveGroundRotate` the
rotational velocities are exactly their previous values. -/
theorem c4_counterexample :
    (solveRotate { baseEntity with rotateSpeed := 7 }
        { baseEntity with name := "t", posX := 1, rotateSpeed := 9 }).1.rotateSpeed = 7 ∧
    (solveRotate { baseEntity with rotateSpeed := 7 }
        { baseEntity with name := "t", posX := 1, rotateSpeed := 9 }).2.rotateSpeed = 9 ∧
    (solveGroundRotate { baseEntity with rotateSpeed := 7 } 1 0).rotateSpeed = 7 := by
  unfold solveRotate solveGroundRotate baseEntity
  norm_num

/-- C7: phase 3 of the tick sets the velocity to
`(position - previousPosition) / dt`, adds `gravity * dt` to the vertical
component exactly when the mass is non-zero, multiplies both components
and the rotational velocity by `1 - friction * size * mass * dt`, and
clamps the rotational velocity so its magnitude never exceeds 500. -/
theorem c7_phase3_velocity_update (pps gravity friction : ℝ) (e : Entity) :
    (phase3Entity pps gravity friction e).speedX
        = (e.posX - e.prePosX) / (1 / pps)
            * (1 - friction * e.size * e.mass * (1 / pps)) ∧
    (phase3Entity pps gravity friction e).speedY
        = ((e.posY - e.prePosY) / (1 / pps)
              + (if e.mass ≠ 0 then gravity * (1 / pps) else 0))
            * (1 - friction * e.size * e.mass * (1 / pps)) ∧
    |(phase3Entity pps gravity friction e).rotateSpeed| ≤ 500 ∧
    (|e.rotateSpeed * (1 - friction * e.size * e.mass * (1 / pps))| ≤ 500 →
      (phase3Entity pps gravity friction e).rotateSpeed
        = e.rotateSpeed * (1 - friction * e.size * e.mass * (1 / pps))) ∧
    (phase3Entity pps gravity friction e).posX = e.posX ∧
    (phase3Entity pps gravity friction e).posY = e.posY := by
  unfold phase3Entity updateSpeed solveSpeed
  set rs := e.rotateSpeed - e.rotateSpeed * (friction * e.size * e.mass) * (1 / pps) with hrs
  have hrs' : rs = e.rotateSpeed * (1 - friction * e.size * e.mass * (1 / pps)) := by
    rw [hrs]; ring
  refine ⟨?_, ?_, ?_, ?_, ?_, ?_⟩
  · show (e.posX - e.prePosX) / (1 / pps)
        - (e.posX - e.prePosX) / (1 / pps) * (friction * e.size * e.mass) * (1 / pps) = _
    ring
  · split_ifs with hm
    · show (e.posY - e.prePosY) / (1 / pps) + gravity * (1 / pps)
          - ((e.posY - e.prePosY) / (1 / pps) + gravity * (1 / pps))
              * (friction * e.size * e.mass) * (1 / pps) = _
      ring
    · show (e.posY - e.prePosY) / (1 / pps)
          - (e.posY - e.prePosY) / (1 / pps) * (friction * e.size * e.mass) * (1 / pps) = _
      ring
  · show |if |rs| > 500 then Real.sign rs * 500 else rs| ≤ 500
    split_ifs with hc
    · rcases lt_trichotomy rs 0 with hneg | hzero | hpos
      · rw [Real.sign_of_neg hneg]; norm_num
      · rw [hzero] at hc; simp at hc; linarith
      · rw [Real.sign_of_pos hpos]; norm_num
    · exact le_of_not_lt hc
  · intro hb
    show (if |rs| > 500 then Real.sign rs * 500 else rs) = _
    rw [if_neg (not_lt.mpr (hrs' ▸ hb)), hrs']
  · rfl
  · rfl

/-- C7 witness: the formulas at the standard parameters on a concrete
entity. -/
theorem c7_phase3_velocity_update_witness :
    (phase3Entity 90 500 0.001 baseEntity).posX = 0 :=
  ((c7_phase3_velocity_update 90 500 0.001 baseEntity).2.2.2.2.1).trans rfl

/-- C10: a constructed circle always holds at least one entity — when the
entity list of the option is empty, exactly one entity is created at the
circle's position carrying its size, mass, stiffness and initial speed —
so the aggregate means divide by a non-zero entity count and the mean
position of that default singleton is the circle's own position. -/
theorem c10_circle_entities_nonempty (ids : Nat → String) (o : SpawnOption) :
    (mkCircle ids o).entities ≠ [] ∧
    ((mkCircle ids o).entities.length : ℝ) ≠ 0 ∧
    (o.entities = [] →
      (mkCircle ids o).entities =
        [{ name := ids 0, posX := o.posX, posY := o.posY, prePosX := o.posX,
           prePosY := o.posY, speedX := o.speedX.getD 0, speedY := o.speedY.getD 0,
           rotate := 0, rotateSpeed := 0, size := o.size, mass := o.mass,
           stiff := o.stiff, targets := [], parent := o.name }] ∧
      (mkCircle ids o).getPosition = (o.posX, o.posY)) := by
  unfold mkCircle mkObjectOfType
  cases h : o.entities with
  | nil =>
    refine ⟨by simp, by simp, fun _ => ⟨by simp [mkEntity], ?_⟩⟩
    unfold WObject.getPosition
    simp [mkEntity]
  | cons a as =>
    refine ⟨by simp [List.enum_cons], ?_,
      fun hc => absurd hc (List.cons_ne_nil a as)⟩
    have hlen : ((a :: as).enum.map
        (fun p => mkEntity (ids p.1) p.2)).length = as.length + 1 := by
      simp [List.enum_cons]
    simp only [hlen]
    exact Nat.cast_ne_zero.mpr (Nat.succ_ne_zero as.length)

/-- C10 witness: a circle option with an empty entity list. -/
theorem c10_circle_entities_nonempty_witness :
    (mkCircle (fun _ => "e0")
        { name := "c", posX := 1, posY := 2, size := 3, mass := 4, stiff := 1 }).entities ≠ [] ∧
    (mkCircle (fun _ => "e0")
        { name := "c", posX := 1, posY := 2, size := 3, mass := 4, stiff := 1 }).getPosition
      = (1, 2) :=
  ⟨(c10_circle_entities_nonempty _ _).1,
   ((c10_circle_entities_nonempty _ _).2.2 rfl).2⟩

/-- C9 amended: `spawn` with a kind outside the four known ones leaves
the world untouched and `deSpawn` with a name absent from the map the
kind addresses (the shared body map for `circle`/`square`/`rope`, the
ground map for `ground`) is a no-op; but a name that is present in the
body map is deleted by `deSpawn` regardless of the stored kind, so
"not present for the given kind" alone does not guarantee a no-op. -/
theorem c9_unknown_spawn_despawn_noop :
    (∀ (ids : Nat → String) (type : String) (objects : List SpawnOption) (w : World),
      type ≠ "circle" → type ≠ "square" → type ≠ "rope" → type ≠ "ground" →
        spawn ids type objects w = w) ∧
    (∀ (type name : String) (w : World),
      type = "circle" ∨ type = "square" ∨ type = "rope" →
        getKey w.objects name = none → deSpawn type name w = w) ∧
    (∀ (name : String) (w : World),
      getKey w.grounds name = none → deSpawn "ground" name w = w) := by
  refine ⟨?_, ?_, ?_⟩
  · intro ids type objects w h1 h2 h3 h4
    unfold spawn
    generalize objects.enum = l
    induction l generalizing w with
    | nil => rfl
    | cons p l ih =>
      rw [List.foldl_cons]
      dsimp only
      rw [if_neg h1, if_neg h2, if_neg h3, if_neg h4]
      exact ih w
  · intro type name w h hn
    unfold deSpawn
    rw [if_pos h, hn]
  · intro name w hn
    unfold deSpawn
    rw [if_neg (by decide), if_pos rfl, hn]

/-- C9 witness: an unknown kind `"blob"` and absent names on an empty
world. -/
theorem c9_unknown_spawn_despawn_noop_witness :
    spawn (fun _ => "i") "blob" [{ name := "x" }]
        { pps := 90, gravity := 500, friction := 0.001, grounds := [], objects := [] }
      = { pps := 90, gravity := 500, friction := 0.001, grounds := [], objects := [] } ∧
    deSpawn "circle" "nope"
        { pps := 90, gravity := 500, friction := 0.001, grounds := [], objects := [] }
      = { pps := 90, gravity := 500, friction := 0.001, grounds := [], objects := [] } ∧
    deSpawn "ground" "nope"
        { pps := 90, gravity := 500, friction := 0.001, grounds := [], objects := [] }
      = { pps := 90, gravity := 500, friction := 0.001, grounds := [], objects := [] } :=
  ⟨c9_unknown_spawn_despawn_noop.1 _ _ _ _
      (by decide) (by decide) (by decide) (by decide),
   c9_unknown_spawn_despawn_noop.2.1 _ _ _ (Or.inl rfl) rfl,
   c9_unknown_spawn_despawn_noop.2.2 _ _ rfl⟩

/-- A square body stored under the name `"a"`, used to exhibit the
cross-kind `deSpawn` deletion. -/
noncomputable def squareA : WObject :=
  mkSquare (fun _ => "i") { name := "a", posX := 0, posY := 0, size := 1, mass := 1, stiff := 1 }

/-- C9 counterexample: the body map holds only a square named `"a"` — so
the name `"a"` is not present for the kind `circle` — yet
`deSpawn "circle" "a"` deletes it and the body map changes. -/
theorem c9_counterexample :
    (∀ p ∈ [("a", squareA)], p.2.type ≠ "circle") ∧
    (deSpawn "circle" "a"
        { pps := 90, gravity := 500, friction := 0.001, grounds := [],
          objects := [("a", squareA)] }).objects = [] ∧
    [("a", squareA)] ≠ ([] : List (String × WObject)) := by
  refine ⟨?_, ?_, by simp⟩
  · intro p hp
    rw [List.mem_singleton] at hp
    subst hp
    show squareA.type ≠ "circle"
    unfold squareA mkSquare mkObjectOfType
    decide
  · unfold deSpawn
    rw [if_pos (Or.inl rfl)]
    rfl

/-- The rope body and world used for the import/export round-trip. -/
noncomputable def ropeWorld : World :=
  spawn (fun _ => "id") "rope"
    [{ name := "r", posX := 1, posY := 2, size := 4, mass := 3, stiff := 1 }]
    { pps := 90, gravity := 500, friction := 0.001, grounds := [], objects := [] }

/-- C1: the round-trip fails for ropes.  The world holds one body of kind
`rope`; `Engine.export` lists it under `rope`, but `Engine.import`
re-spawns `data.rope` with the kind string `"square"` (line 716 of
src/unnamed/part_000), so after `import(export(world))` the body named
`"r"` has kind `square`, not `rope`. -/
theorem c1_rope_reimported_as_square :
    (getKey ropeWorld.objects "r").map WObject.type = some "rope" ∧
    (getKey (importW (fun _ => "id") (exportW ropeWorld) ropeWorld).objects "r").map
        WObject.type = some "square" := by
  constructor
  · rfl
  · rfl

/-- Distance between the centres of two entities, the `distance` of
`Engine.solvePosition` for the call `solvePosition a b`. -/
noncomputable def entityDist (a b : Entity) : ℝ :=
  Real.sqrt ((b.posX - a.posX) ^ 2 + (b.posY - a.posY) ^ 2)

/-- The `move` correction factor of `Engine.solvePosition` for the call
`solvePosition s t`. -/
noncomputable def moveAmount (s t : Entity) : ℝ :=
  (entityDist s t - (s.size + t.size))
    / (entityDist s t * (s.invMass + t.invMass) + 0.000001) * s.stiff

/-- `solveRotate` writes at most the two rotational velocities; every
other field of both entities is returned unchanged. -/
theorem solveRotate_shape (s t : Entity) :
    ∃ u v, solveRotate s t = ({ s with rotateSpeed := u }, { t with rotateSpeed := v }) := by
  unfold solveRotate
  dsimp only
  split_ifs
  · exact ⟨_, _, rfl⟩
  · exact ⟨_, _, rfl⟩
  · exact ⟨s.rotateSpeed, t.rotateSpeed, rfl⟩

/-- The single-axis gap never exceeds the centre distance (x-axis). -/
theorem abs_le_entityDist_x (a b : Entity) : |b.posX - a.posX| ≤ entityDist a b := by
  unfold entityDist
  rw [← Real.sqrt_sq_eq_abs]
  exact Real.sqrt_le_sqrt (by nlinarith [sq_nonneg (b.posY - a.posY)])

/-- The single-axis gap never exceeds the centre distance (y-axis). -/
theorem abs_le_entityDist_y (a b : Entity) : |b.posY - a.posY| ≤ entityDist a b := by
  unfold entityDist
  rw [← Real.sqrt_sq_eq_abs]
  exact Real.sqrt_le_sqrt (by nlinarith [sq_nonneg (b.posX - a.posX)])

/-- Shape of `solvePosition` in the colliding case: when the pair is not
both-static, not bounding-box rejected, and the distance is at most the
sum of the radii, both entities are displaced along the centre line by
`move` weighted with their own inverse masses, the rotational heuristic
runs, and the `hitEntity` event is emitted. -/
theorem solvePosition_hit (s t : Entity)
    (hT : ¬ s.invMass + t.invMass = 0)
    (hbb : ¬(|t.posX - s.posX| ≥ s.size + t.size ∧ |t.posY - s.posY| ≥ s.size + t.size))
    (hd : entityDist s t ≤ s.size + t.size) :
    ∃ u v,
      solvePosition s t =
        (({ s with
              posX := s.posX + (t.posX - s.posX) * moveAmount s t * s.invMass
              posY := s.posY + (t.posY - s.posY) * moveAmount s t * s.invMass
              rotateSpeed := u },
          { t with
              posX := t.posX - (t.posX - s.posX) * moveAmount s t * t.invMass
              posY := t.posY - (t.posY - s.posY) * moveAmount s t * t.invMass
              rotateSpeed := v }),
         [Event.hitEntity s.name t.name]) := by
  unfold entityDist at hd
  unfold solvePosition
  dsimp only
  rw [if_neg hT, if_neg hbb, if_pos hd]
  obtain ⟨u, v, hrot⟩ := solveRotate_shape
    { s with
        posX := s.posX + (t.posX - s.posX) * moveAmount s t * s.invMass
        posY := s.posY + (t.posY - s.posY) * moveAmount s t * s.invMass }
    { t with
        posX := t.posX - (t.posX - s.posX) * moveAmount s t * t.invMass
        posY := t.posY - (t.posY - s.posY) * moveAmount s t * t.invMass }
  refine ⟨u, v, ?_⟩
  have harg : (fun a b => solveRotate a b)
      { s with
          posX := s.posX + (t.posX - s.posX) * moveAmount s t * s.invMass
          posY := s.posY + (t.posY - s.posY) * moveAmount s t * s.invMass }
      { t with
          posX := t.posX - (t.posX - s.posX) * moveAmount s t * t.invMass
          posY := t.posY - (t.posY - s.posY) * moveAmount s t * t.invMass }
      = ({ s with
            posX := s.posX + (t.posX - s.posX) * moveAmount s t * s.invMass
            posY := s.posY + (t.posY - s.posY) * moveAmount s t * s.invMass
            rotateSpeed := u },
         { t with
            posX := t.posX - (t.posX - s.posX) * moveAmount s t * t.invMass
            posY := t.posY - (t.posY - s.posY) * moveAmount s t * t.invMass
            rotateSpeed := v }) := hrot
  rw [Prod.mk.injEq]
  constructor
  · show solveRotate _ _ = _
    unfold moveAmount entityDist at harg ⊢
    exact harg
  · rfl

/-- C5 amended: for two overlapping dynamic entities of equal mass and
equal stiffness whose centres do not coincide, one `solvePosition` pass
displaces the two entities by exactly opposite vectors (each mover takes
half of the total correction), strictly increases the centre distance
without overshooting past contact, and with stiffness 1 the remaining gap
to exact contact is precisely the epsilon-guard term
`(S - d) * 1e-6 / (d * (2/m) + 1e-6)`. -/
theorem c5_equal_mass_overlap_pass (a b : Entity) (m s : ℝ)
    (hma : a.mass = m) (hmb : b.mass = m) (hm : 0 < m)
    (hsa : a.stiff = s) (_hsb : b.stiff = s) (hs0 : 0 < s) (hs1 : s ≤ 1)
    (hd0 : 0 < entityDist a b) (hdS : entityDist a b < a.size + b.size) :
    ((solvePosition a b).1.1.posX - a.posX
        = -((solvePosition a b).1.2.posX - b.posX) ∧
     (solvePosition a b).1.1.posY - a.posY
        = -((solvePosition a b).1.2.posY - b.posY)) ∧
    entityDist a b < entityDist (solvePosition a b).1.1 (solvePosition a b).1.2 ∧
    entityDist (solvePosition a b).1.1 (solvePosition a b).1.2 < a.size + b.size ∧
    (s = 1 →
      a.size + b.size - entityDist (solvePosition a b).1.1 (solvePosition a b).1.2
        = (a.size + b.size - entityDist a b) * 0.000001
            / (entityDist a b * (2 / m) + 0.000001)) := by
  have hm' : m ≠ 0 := ne_of_gt hm
  have hinvA : a.invMass = 1 / m := by
    unfold Entity.invMass; rw [hma, if_neg hm']
  have hinvB : b.invMass = 1 / m := by
    unfold Entity.invMass; rw [hmb, if_neg hm']
  have hTm : a.invMass + b.invMass = 2 / m := by rw [hinvA, hinvB]; ring
  have h2m : (0 : ℝ) < 2 / m := by positivity
  have hdenom : (0 : ℝ) < entityDist a b * (2 / m) + 0.000001 := by
    nlinarith [mul_pos hd0 h2m]
  have hT : ¬ a.invMass + b.invMass = 0 := by
    rw [hTm]; exact ne_of_gt h2m
  have hbb : ¬(|b.posX - a.posX| ≥ a.size + b.size ∧
      |b.posY - a.posY| ≥ a.size + b.size) := by
    rintro ⟨h1, -⟩
    exact absurd (lt_of_le_of_lt (le_trans h1 (abs_le_entityDist_x a b)) hdS)
      (lt_irrefl _)
  have hmv : moveAmount a b
      = (entityDist a b - (a.size + b.size))
          / (entityDist a b * (2 / m) + 0.000001) * s := by
    unfold moveAmount; rw [hTm, hsa]
  have hmv_neg : moveAmount a b < 0 := by
    rw [hmv]
    exact mul_neg_of_neg_of_pos
      (div_neg_of_neg_of_pos (by linarith) hdenom) hs0
  have hw : moveAmount a b * (2 / m) < 0 := mul_neg_of_neg_of_pos hmv_neg h2m
  have hc1 : 1 < 1 - moveAmount a b * (2 / m) := by linarith
  have hc0 : (0 : ℝ) ≤ 1 - moveAmount a b * (2 / m) := by linarith
  obtain ⟨u, v, hr⟩ := solvePosition_hit a b hT hbb (le_of_lt hdS)
  have hdx : (solvePosition a b).1.1.posX - a.posX
      = -((solvePosition a b).1.2.posX - b.posX) := by
    rw [hr]; dsimp only; rw [hinvA, hinvB]; ring
  have hdy : (solvePosition a b).1.1.posY - a.posY
      = -((solvePosition a b).1.2.posY - b.posY) := by
    rw [hr]; dsimp only; rw [hinvA, hinvB]; ring
  have e : ((solvePosition a b).1.2.posX - (solvePosition a b).1.1.posX) ^ 2
        + ((solvePosition a b).1.2.posY - (solvePosition a b).1.1.posY) ^ 2
      = (1 - moveAmount a b * (2 / m)) ^ 2
          * ((b.posX - a.posX) ^ 2 + (b.posY - a.posY) ^ 2) := by
    rw [hr]; dsimp only; rw [hinvA, hinvB]; ring
  have hdist : entityDist (solvePosition a b).1.1 (solvePosition a b).1.2
      = (1 - moveAmount a b * (2 / m)) * entityDist a b := by
    unfold entityDist
    rw [e, Real.sqrt_mul (sq_nonneg _), Real.sqrt_sq_eq_abs, abs_of_nonneg hc0]
  refine ⟨⟨hdx, hdy⟩, ?_, ?_, ?_⟩
  · rw [hdist]
    exact (lt_mul_iff_one_lt_left hd0).mpr hc1
  · rw [hdist, hmv]
    have expand : a.size + b.size
        - (1 - (entityDist a b - (a.size + b.size))
              / (entityDist a b * (2 / m) + 0.000001) * s * (2 / m))
            * entityDist a b
        = ((a.size + b.size - entityDist a b)
              * ((2 / m) * entityDist a b * (1 - s) + 0.000001))
            / (entityDist a b * (2 / m) + 0.000001) := by
      field_simp
      ring
    have hpos : (0 : ℝ) < (a.size + b.size - entityDist a b)
        * ((2 / m) * entityDist a b * (1 - s) + 0.000001)
        / (entityDist a b * (2 / m) + 0.000001) := by
      apply div_pos _ hdenom
      apply mul_pos (by linarith)
      nlinarith [mul_nonneg (mul_nonneg (le_of_lt h2m) (le_of_lt hd0))
        (by linarith : (0 : ℝ) ≤ 1 - s)]
    linarith [expand ▸ hpos]
  · intro hs1'
    rw [hdist, hmv, hs1']
    field_simp
    ring

/-- C5 witness: two circles of radius 3, mass 1 and stiffness 1 whose
centres are 5 apart on the x-axis. -/
theorem c5_equal_mass_overlap_pass_witness :
    entityDist { baseEntity with size := 3 }
        { baseEntity with name := "b", posX := 5, size := 3 } = 5 ∧
    entityDist
        (solvePosition { baseEntity with size := 3 }
          { baseEntity with name := "b", posX := 5, size := 3 }).1.1
        (solvePosition { baseEntity with size := 3 }
          { baseEntity with name := "b", posX := 5, size := 3 }).1.2
      < { baseEntity with size := 3 }.size
          + { baseEntity with name := "b", posX := 5, size := 3 }.size := by
  have h5 : entityDist { baseEntity with size := 3 }
      { baseEntity with name := "b", posX := 5, size := 3 } = 5 := by
    unfold entityDist baseEntity
    dsimp only
    rw [show ((5 : ℝ) - 0) ^ 2 + (0 - 0) ^ 2 = 5 ^ 2 by norm_num]
    exact Real.sqrt_sq (by norm_num)
  refine ⟨h5, ?_⟩
  exact (c5_equal_mass_overlap_pass { baseEntity with size := 3 }
    { baseEntity with name := "b", posX := 5, size := 3 } 1 1
    rfl rfl (by norm_num) rfl rfl (by norm_num) (by norm_num)
    (by rw [h5]; norm_num)
    (by rw [h5]; unfold baseEntity; dsimp only; norm_num)).2.2.1

/-- C5 counterexample: two coincident equal-mass stiffness-1 circles are
fully overlapping (distance 0 < sum of radii), yet one resolution pass
moves neither of them — the correction vector is the zero vector — so
the penetration depth is not strictly reduced and the post-pass distance
is 0, not the sum of the radii. -/
theorem c5_counterexample :
    entityDist baseEntity { baseEntity with name := "b" } = 0 ∧
    (0 : ℝ) < baseEntity.size + { baseEntity with name := "b" }.size ∧
    (solvePosition baseEntity { baseEntity with name := "b" }).1.1.posX = 0 ∧
    (solvePosition baseEntity { baseEntity with name := "b" }).1.1.posY = 0 ∧
    (solvePosition baseEntity { baseEntity with name := "b" }).1.2.posX = 0 ∧
    (solvePosition baseEntity { baseEntity with name := "b" }).1.2.posY = 0 ∧
    entityDist (solvePosition baseEntity { baseEntity with name := "b" }).1.1
        (solvePosition baseEntity { baseEntity with name := "b" }).1.2 = 0 := by
  have hz : entityDist baseEntity { baseEntity with name := "b" } = 0 := by
    unfold entityDist baseEntity
    norm_num
  have hr : solvePosition baseEntity { baseEntity with name := "b" }
      = ((baseEntity, { baseEntity with name := "b" }), [Event.hitEntity "e" "b"]) := by
    unfold solvePosition solveRotate baseEntity Entity.invMass
    norm_num
  rw [hr]
  dsimp only
  rw [hz]
  exact ⟨rfl, by unfold baseEntity; norm_num, rfl, rfl, rfl, rfl, rfl⟩

/-- A successful entity lookup returns an entity bearing the looked-up
name. -/
theorem findEntity_name {pool : List Entity} {n : String} {e : Entity}
    (hf : findEntity pool n = some e) : e.name = n := by
  unfold findEntity at hf
  have h := List.find?_some hf
  exact eq_of_beq h

/-- `setEntity` preserves the list of entity names. -/
theorem setEntity_names (pool : List Entity) (e : Entity) :
    (setEntity pool e).map Entity.name = pool.map Entity.name := by
  unfold setEntity
  rw [List.map_map]
  apply List.map_congr_left
  intro x _
  dsimp only [Function.comp]
  split_ifs with h
  · exact h.symm
  · rfl

/-- A name that resolves to no entity still resolves to none after a
`setEntity` write. -/
theorem findEntity_none_setEntity (pool : List Entity) (b : Entity)
    {m : String} (hm : findEntity pool m = none) :
    findEntity (setEntity pool b) m = none := by
  rw [findEntity, List.find?_eq_none] at hm ⊢
  intro x hx
  unfold setEntity at hx
  obtain ⟨y, hy, rfl⟩ := List.mem_map.mp hx
  split_ifs with h
  · have := hm y hy
    rw [← h]
    exact this
  · exact hm y hy

/-- Writing `b` over the entity that a successful lookup of `n` found
makes the lookup of `n` return `b`. -/
theorem findEntity_setEntity_self (pool : List Entity) (n : String)
    (e b : Entity) (hf : findEntity pool n = some e) (hb : b.name = n) :
    findEntity (setEntity pool b) n = some b := by
  induction pool with
  | nil => simp [findEntity] at hf
  | cons h tl ih =>
    by_cases hh : h.name = n
    · simp [setEntity, findEntity, hh, hb]
    · have htl : findEntity tl n = some e := by
        simpa [findEntity, List.find?_cons, hh] using hf
      have := ih htl
      simpa [setEntity, findEntity, List.find?_cons, hh, hb,
        show ¬ h.name = b.name from hb ▸ hh] using this

/-- With globally unique names, writing back the entity that a lookup
found leaves the pool unchanged. -/
theorem setEntity_self (pool : List Entity) (n : String) (e : Entity)
    (hN : (pool.map Entity.name).Nodup) (hf : findEntity pool n = some e) :
    setEntity pool e = pool := by
  induction pool with
  | nil => rfl
  | cons h tl ih =>
    rw [List.map_cons, List.nodup_cons] at hN
    by_cases hh : h.name = n
    · have he : h = e := by
        have : findEntity (h :: tl) n = some h := by
          simp [findEntity, List.find?_cons, hh]
        rw [this] at hf
        exact Option.some.inj hf
      subst he
      unfold setEntity
      rw [List.map_cons, if_pos rfl]
      congr 1
      have : ∀ x ∈ tl, (if x.name = h.name then h else x) = x := by
        intro x hx
        rw [if_neg]
        intro hc
        exact hN.1 (hc ▸ List.mem_map_of_mem Entity.name hx)
      calc tl.map (fun x => if x.name = h.name then h else x)
          = tl.map id := List.map_congr_left this
        _ = tl := List.map_id tl
    · have htl : findEntity tl n = some e := by
        simpa [findEntity, List.find?_cons, hh] using hf
      have hen : e.name = n := findEntity_name hf
      unfold setEntity
      rw [List.map_cons, if_neg (by rw [hen]; exact hh)]
      congr 1
      exact ih hN.2 htl

/-- Two consecutive writes to the same name collapse to the second. -/
theorem setEntity_setEntity (pool : List Entity) (a b : Entity)
    (hab : a.name = b.name) :
    setEntity (setEntity pool a) b = setEntity pool b := by
  unfold setEntity
  rw [List.map_map]
  apply List.map_congr_left
  intro x _
  dsimp only [Function.comp]
  by_cases hx : x.name = a.name
  · rw [if_pos hx, if_pos hab, if_pos (hx.trans hab)]
  · rw [if_neg hx, if_neg (fun hc => hx (hc.trans hab.symm))]

/-- Folding the per-link step of the constraint loop over a list of
dangling link records filters those link names out of the holder's link
list and touches nothing else. -/
theorem fold_dangling (n : String) :
    ∀ (ts : List Target) (pool : List Entity) (e : Entity),
      (pool.map Entity.name).Nodup →
      findEntity pool n = some e →
      (∀ t ∈ ts, findEntity pool t.name = none) →
      ts.foldl (fun p d => runLink p n d) pool
        = setEntity pool
            { e with
              targets :=
                ts.foldl (fun acc d => acc.filter (fun u => u.name != d.name))
                  e.targets } := by
  intro ts
  induction ts with
  | nil =>
    intro pool e hN hf _
    rw [List.foldl_nil, List.foldl_nil]
    exact (setEntity_self pool n e hN hf).symm
  | cons d ts ih =>
    intro pool e hN hf hd
    rw [List.foldl_cons]
    have hstep : runLink pool n d = setEntity pool (e.removeTarget d.name) := by
      unfold runLink
      rw [hd d (List.mem_cons_self d ts), hf]
    rw [hstep]
    have hen : e.name = n := findEntity_name hf
    have hb : (e.removeTarget d.name).name = n := hen
    have h1 : ((setEntity pool (e.removeTarget d.name)).map Entity.name).Nodup := by
      rw [setEntity_names]; exact hN
    have h2 : findEntity (setEntity pool (e.removeTarget d.name)) n
        = some (e.removeTarget d.name) :=
      findEntity_setEntity_self pool n e _ hf hb
    have h3 : ∀ t ∈ ts,
        findEntity (setEntity pool (e.removeTarget d.name)) t.name = none :=
      fun t ht => findEntity_none_setEntity pool _
        (hd t (List.mem_cons_of_mem d ht))
    rw [ih _ _ h1 h2 h3]
    exact setEntity_setEntity pool (e.removeTarget d.name)
      { e with
        targets :=
          (d :: ts).foldl (fun acc d => acc.filter (fun u => u.name != d.name))
            e.targets } rfl

/-- Every element of a list of links mentions its own name, so deleting
every listed name from the list itself empties it. -/
theorem foldl_filter_self (l : List Target) :
    l.foldl (fun acc d => acc.filter (fun u => u.name != d.name)) l = [] := by
  suffices h : ∀ (l acc : List Target),
      (∀ u ∈ acc, ∃ t ∈ l, u.name = t.name) →
      l.foldl (fun acc d => acc.filter (fun u => u.name != d.name)) acc = [] by
    exact h l l (fun u hu => ⟨u, hu, rfl⟩)
  intro l
  induction l with
  | nil =>
    intro acc hacc
    cases acc with
    | nil => rfl
    | cons u acc =>
      obtain ⟨t, ht, -⟩ := hacc u (List.mem_cons_self u acc)
      exact absurd ht (List.not_mem_nil t)
  | cons d l ih =>
    intro acc hacc
    rw [List.foldl_cons]
    apply ih
    intro u hu
    rw [List.mem_filter] at hu
    obtain ⟨t, ht, hname⟩ := hacc u hu.1
    rcases List.mem_cons.mp ht with rfl | ht'
    · exfalso
      have := hu.2
      rw [bne_iff_ne] at this
      exact this hname
    · exact ⟨t, ht', hname⟩

/-- C8: if every link held by the entity named `n` is dangling — its
target name resolves to no entity in the pool — then the constraint-
resolution step for `n` removes exactly those links (the link list
becomes empty, one removal per dangling link encountered), changes no
other field of the holder, no position of any entity, and returns
normally; `solveConnect` is never invoked so no notification can arise
(the constraint loop dispatches no events at all). -/
theorem c8_dangling_links_pruned (pool : List Entity) (n : String) (e : Entity)
    (hN : (pool.map Entity.name).Nodup)
    (hf : findEntity pool n = some e)
    (hd : ∀ t ∈ e.targets, findEntity pool t.name = none) :
    resolveLinks pool n = setEntity pool { e with targets := [] } := by
  unfold resolveLinks
  rw [hf]
  dsimp only
  rw [fold_dangling n e.targets pool e hN hf hd]
  rw [foldl_filter_self]

/-- The ground loop is the identity when the world holds no grounds. -/
theorem runGrounds_nil (st : List Entity × List Event) (n : String) :
    runGrounds [] st n = st := rfl

/-- Lookup in a two-entity pool, hitting the first entry. -/
theorem findEntity_pair_fst (x y : Entity) {n : String} (hx : x.name = n) :
    findEntity [x, y] n = some x := by
  unfold findEntity
  rw [List.find?_cons_of_pos _ (by simp [hx])]

/-- Lookup in a two-entity pool, hitting the second entry. -/
theorem findEntity_pair_snd (x y : Entity) {n : String} (hx : x.name ≠ n)
    (hy : y.name = n) : findEntity [x, y] n = some y := by
  unfold findEntity
  rw [List.find?_cons_of_neg _ (by simp [hx]),
      List.find?_cons_of_pos _ (by simp [hy])]

/-- Writing into a two-entity pool at the first entry's name. -/
theorem setEntity_pair_fst (x y e : Entity) (h1 : x.name = e.name)
    (h2 : ¬ y.name = e.name) : setEntity [x, y] e = [e, y] := by
  unfold setEntity
  rw [List.map_cons, List.map_cons, List.map_nil, if_pos h1, if_neg h2]

/-- Writing into a two-entity pool at the second entry's name. -/
theorem setEntity_pair_snd (x y e : Entity) (h1 : ¬ x.name = e.name)
    (h2 : y.name = e.name) : setEntity [x, y] e = [x, e] := by
  unfold setEntity
  rw [List.map_cons, List.map_cons, List.map_nil, if_neg h1, if_pos h2]

/-- The constraint loop is the identity for an entity with no links. -/
theorem resolveLinks_no_targets (pool : List Entity) (n : String) (e : Entity)
    (hf : findEntity pool n = some e) (ht : e.targets = []) :
    resolveLinks pool n = pool := by
  unfold resolveLinks
  rw [hf]
  dsimp only
  rw [ht, List.foldl_nil]

/-- The centre distance is symmetric in the two entities. -/
theorem entityDist_symm (x y : Entity) : entityDist x y = entityDist y x := by
  unfold entityDist
  rw [show (y.posX - x.posX) ^ 2 + (y.posY - x.posY) ^ 2
      = (x.posX - y.posX) ^ 2 + (x.posY - y.posY) ^ 2 from by ring]

/-- When the centre distance is positive and at most the sum of radii,
the conjunctive bounding-box rejection cannot fire: both axis gaps at
least the (positive) sum would force a distance of at least √2 times the
sum. -/
theorem bounding_not_reject (a b : Entity)
    (hd0 : 0 < entityDist a b) (hdS : entityDist a b ≤ a.size + b.size) :
    ¬(|b.posX - a.posX| ≥ a.size + b.size ∧
      |b.posY - a.posY| ≥ a.size + b.size) := by
  have hS : 0 < a.size + b.size := lt_of_lt_of_le hd0 hdS
  rintro ⟨h1, h2⟩
  have hx2 : (a.size + b.size) ^ 2 ≤ (b.posX - a.posX) ^ 2 := by
    rw [← sq_abs (b.posX - a.posX)]
    exact pow_le_pow_left₀ (le_of_lt hS) h1 2
  have hy2 : (a.size + b.size) ^ 2 ≤ (b.posY - a.posY) ^ 2 := by
    rw [← sq_abs (b.posY - a.posY)]
    exact pow_le_pow_left₀ (le_of_lt hS) h2 2
  have hd2 : entityDist a b ^ 2 = (b.posX - a.posX) ^ 2 + (b.posY - a.posY) ^ 2 := by
    unfold entityDist
    exact Real.sq_sqrt (by positivity)
  have hdS2 : entityDist a b ^ 2 ≤ (a.size + b.size) ^ 2 :=
    pow_le_pow_left₀ (le_of_lt hd0) hdS 2
  nlinarith [mul_pos hS hS]

/-- After one colliding `solvePosition` pass the centre distance is still
positive and still at most the sum of the radii (the source stiffness
being in `[0,1]` prevents overshoot). -/
theorem solvePosition_dist_bounds (a b : Entity)
    (hT : 0 < a.invMass + b.invMass)
    (hs0 : 0 ≤ a.stiff) (hs1 : a.stiff ≤ 1)
    (hd0 : 0 < entityDist a b) (hdS : entityDist a b ≤ a.size + b.size) :
    0 < entityDist (solvePosition a b).1.1 (solvePosition a b).1.2 ∧
    entityDist (solvePosition a b).1.1 (solvePosition a b).1.2
      ≤ a.size + b.size := by
  have hdenom : (0 : ℝ) < entityDist a b * (a.invMass + b.invMass) + 0.000001 := by
    nlinarith [mul_pos hd0 hT]
  have hmv_le : moveAmount a b ≤ 0 := by
    unfold moveAmount
    have h1 : entityDist a b - (a.size + b.size) ≤ 0 := by linarith
    have h2 : (entityDist a b - (a.size + b.size))
        / (entityDist a b * (a.invMass + b.invMass) + 0.000001) ≤ 0 :=
      div_nonpos_iff.mpr (Or.inr ⟨h1, hdenom.le⟩)
    exact mul_nonpos_iff.mpr (Or.inr ⟨h2, hs0⟩)
  have hwt : moveAmount a b * (a.invMass + b.invMass) ≤ 0 :=
    mul_nonpos_iff.mpr (Or.inr ⟨hmv_le, hT.le⟩)
  have hc1 : (1 : ℝ) ≤ 1 - moveAmount a b * (a.invMass + b.invMass) := by linarith
  have hc0 : (0 : ℝ) ≤ 1 - moveAmount a b * (a.invMass + b.invMass) := by linarith
  have hT0 : ¬ a.invMass + b.invMass = 0 := ne_of_gt hT
  have hbb := bounding_not_reject a b hd0 hdS
  obtain ⟨u, v, hr⟩ := solvePosition_hit a b hT0 hbb hdS
  have e : ((solvePosition a b).1.2.posX - (solvePosition a b).1.1.posX) ^ 2
        + ((solvePosition a b).1.2.posY - (solvePosition a b).1.1.posY) ^ 2
      = (1 - moveAmount a b * (a.invMass + b.invMass)) ^ 2
          * ((b.posX - a.posX) ^ 2 + (b.posY - a.posY) ^ 2) := by
    rw [hr]; dsimp only; ring
  have hdist : entityDist (solvePosition a b).1.1 (solvePosition a b).1.2
      = (1 - moveAmount a b * (a.invMass + b.invMass)) * entityDist a b := by
    unfold entityDist
    rw [e, Real.sqrt_mul (sq_nonneg _), Real.sqrt_sq_eq_abs, abs_of_nonneg hc0]
  constructor
  · rw [hdist]
    exact mul_pos (lt_of_lt_of_le one_pos hc1) hd0
  · rw [hdist]
    have expand : (a.size + b.size)
        - (1 - moveAmount a b * (a.invMass + b.invMass)) * entityDist a b
        = ((a.size + b.size - entityDist a b)
              * ((a.invMass + b.invMass) * entityDist a b * (1 - a.stiff)
                  + 0.000001))
            / (entityDist a b * (a.invMass + b.invMass) + 0.000001) := by
      unfold moveAmount
      field_simp
      ring
    have hnonneg : 0 ≤ (a.size + b.size)
        - (1 - moveAmount a b * (a.invMass + b.invMass)) * entityDist a b := by
      rw [expand]
      apply div_nonneg _ hdenom.le
      apply mul_nonneg (by linarith)
      have hstep : 0 ≤ (a.invMass + b.invMass) * entityDist a b * (1 - a.stiff) :=
        mul_nonneg (mul_nonneg hT.le hd0.le) (by linarith)
      linarith
    linarith

/-- A link record pointing at the absent name `"ghost"`. -/
noncomputable def ghostLink : Target := { name := "ghost", distance := 5, stiff := 1 }

/-- An entity named `"a"` holding exactly the dangling `ghostLink`. -/
noncomputable def entityA : Entity := { baseEntity with name := "a", targets := [ghostLink] }

/-- A two-entity pool in which `"a"` links to the absent `"ghost"`. -/
noncomputable def poolAB : List Entity := [entityA, { baseEntity with name := "b" }]

/-- C8 witness: on `poolAB` the constraint loop for `"a"` empties its
link list and leaves everything else in place. -/
theorem c8_dangling_links_pruned_witness :
    findEntity poolAB "a" = some entityA ∧
    resolveLinks poolAB "a"
      = setEntity poolAB { entityA with targets := ([] : List Target) } := by
  refine ⟨rfl, c8_dangling_links_pruned poolAB "a" entityA ?_ rfl ?_⟩
  · show (poolAB.map Entity.name).Nodup
    unfold poolAB entityA baseEntity
    simp
  · intro t ht
    have hg : t = ghostLink := by
      have : entityA.targets = [ghostLink] := rfl
      rw [this, List.mem_singleton] at ht
      exact ht
    subst hg
    rfl

/-- C3 amended: the collision phase visits every ORDERED pair of
distinct-named entities, so a colliding unordered pair is resolved and
notified twice per tick, once in each direction; for a two-entity world
with no grounds and no links whose (not both-static) entities overlap,
the phase emits exactly the two events `(a,b)` then `(b,a)`. -/
theorem c3_ordered_pair_events (a b : Entity)
    (hab : a.name ≠ b.name)
    (hT : 0 < a.invMass + b.invMass)
    (hsa0 : 0 ≤ a.stiff) (hsa1 : a.stiff ≤ 1)
    (hta : a.targets = []) (htb : b.targets = [])
    (hd0 : 0 < entityDist a b) (hdS : entityDist a b ≤ a.size + b.size) :
    (phase2 [] [a, b]).2
      = [Event.hitEntity a.name b.name, Event.hitEntity b.name a.name] := by
  have hT0 : ¬ a.invMass + b.invMass = 0 := ne_of_gt hT
  have hbb1 := bounding_not_reject a b hd0 hdS
  obtain ⟨hD0, hDS⟩ := solvePosition_dist_bounds a b hT hsa0 hsa1 hd0 hdS
  have pack1 : ∃ A B, solvePosition a b = ((A, B), [Event.hitEntity a.name b.name])
      ∧ A.name = a.name ∧ B.name = b.name ∧ A.mass = a.mass ∧ B.mass = b.mass
      ∧ A.size = a.size ∧ B.size = b.size
      ∧ A.targets = a.targets ∧ B.targets = b.targets := by
    obtain ⟨u, v, hr⟩ := solvePosition_hit a b hT0 hbb1 hdS
    exact ⟨_, _, hr, rfl, rfl, rfl, rfl, rfl, rfl, rfl, rfl⟩
  obtain ⟨A, B, hr1, hAname, hBname, hAmass, hBmass, hAsize, hBsize,
    hAtargets, hBtargets⟩ := pack1
  rw [hr1] at hD0 hDS
  dsimp only at hD0 hDS
  -- pass 2 preconditions
  have hd0' : 0 < entityDist B A := by rw [entityDist_symm]; exact hD0
  have hdS' : entityDist B A ≤ B.size + A.size := by
    rw [entityDist_symm, hBsize, hAsize]
    linarith [hDS]
  have hinvA : A.invMass = a.invMass := by
    unfold Entity.invMass; rw [hAmass]
  have hinvB : B.invMass = b.invMass := by
    unfold Entity.invMass; rw [hBmass]
  have hT2 : ¬ B.invMass + A.invMass = 0 := by
    rw [hinvA, hinvB]
    intro hc
    exact hT0 (by linarith)
  have hbb2 := bounding_not_reject B A hd0' hdS'
  have pack2 : ∃ C D, solvePosition B A = ((C, D), [Event.hitEntity B.name A.name])
      ∧ C.name = b.name ∧ D.name = a.name ∧ C.targets = b.targets := by
    obtain ⟨u2, v2, hr2⟩ := solvePosition_hit B A hT2 hbb2 hdS'
    exact ⟨_, _, hr2, hBname, hAname, hBtargets⟩
  obtain ⟨C, D, hr2, hCname, hDname, hCtargets⟩ := pack2
  -- pass 1 of the pair loop
  have hpass1 : runPairs [a.name, b.name] ([a, b], []) a.name
      = ([A, B], [Event.hitEntity a.name b.name]) := by
    unfold runPairs
    simp only [List.foldl_cons, List.foldl_nil, eq_self_iff_true, if_true]
    rw [if_neg hab]
    rw [findEntity_pair_fst a b rfl, findEntity_pair_snd a b hab rfl]
    dsimp only
    rw [hr1]
    dsimp only
    rw [setEntity_pair_fst a b A hAname.symm
          (fun hc => hab (hc.trans hAname).symm),
        setEntity_pair_snd A b B
          (fun hc => hab ((hAname.symm.trans hc).trans hBname))
          hBname.symm]
    rfl
  have hres1 : resolveLinks [A, B] a.name = [A, B] :=
    resolveLinks_no_targets _ _ A (findEntity_pair_fst A B hAname)
      (hAtargets.trans hta)
  -- pass 2 of the pair loop
  have hpass2 : runPairs [a.name, b.name]
        ([A, B], [Event.hitEntity a.name b.name]) b.name
      = ([D, C], [Event.hitEntity a.name b.name, Event.hitEntity B.name A.name]) := by
    unfold runPairs
    simp only [List.foldl_cons, List.foldl_nil, eq_self_iff_true, if_true]
    rw [if_neg (fun hc : b.name = a.name => hab hc.symm)]
    rw [findEntity_pair_snd A B (fun hc => hab (hAname.symm.trans hc)) hBname,
        findEntity_pair_fst A B hAname]
    dsimp only
    rw [hr2]
    dsimp only
    rw [setEntity_pair_snd A B C
          (fun hc => hab ((hAname.symm.trans hc).trans hCname))
          (hBname.trans hCname.symm),
        setEntity_pair_fst A C D (hAname.trans hDname.symm)
          (fun hc => hab (((hCname.symm.trans hc).trans hDname)).symm)]
    rfl
  have hres2 : resolveLinks [D, C] b.name = [D, C] :=
    resolveLinks_no_targets _ _ C
      (findEntity_pair_snd D C (fun hc => hab (hDname.symm.trans hc)) hCname)
      (hCtargets.trans htb)
  -- assemble the phase
  unfold phase2
  simp only [List.map_cons, List.map_nil, List.foldl_cons, List.foldl_nil]
  simp only [runGrounds_nil]
  rw [hpass1]
  dsimp only
  rw [hres1]
  rw [hpass2]
  dsimp only
  rw [hBname, hAname]

/-- A unit circle named `"p"` at the origin. -/
noncomputable def entityP : Entity := { baseEntity with name := "p" }

/-- A unit circle named `"q"` one unit to the right. -/
noncomputable def entityQ : Entity := { baseEntity with name := "q", posX := 1 }

/-- C3 witness: the overlapping pair `p`,`q` produces the two ordered
events in one collision phase. -/
theorem c3_ordered_pair_events_witness :
    entityDist entityP entityQ = 1 ∧
    (phase2 [] [entityP, entityQ]).2
      = [Event.hitEntity "p" "q", Event.hitEntity "q" "p"] := by
  have h1 : entityDist entityP entityQ = 1 := by
    unfold entityDist entityP entityQ baseEntity
    dsimp only
    rw [show ((1 : ℝ) - 0) ^ 2 + (0 - 0) ^ 2 = 1 by norm_num]
    exact Real.sqrt_one
  refine ⟨h1, ?_⟩
  exact c3_ordered_pair_events entityP entityQ (by decide)
    (by unfold Entity.invMass entityP entityQ baseEntity; norm_num)
    (by unfold entityP baseEntity; norm_num)
    (by unfold entityP baseEntity; norm_num)
    rfl rfl
    (by rw [h1]; norm_num)
    (by rw [h1]; unfold entityP entityQ baseEntity; dsimp only; norm_num)

/-- A stiffness-0 unit circle named `"c"` at the origin. -/
noncomputable def entityC0 : Entity := { baseEntity with name := "c", stiff := 0 }

/-- A stiffness-0 unit circle named `"d"` one unit to the right. -/
noncomputable def entityD0 : Entity :=
  { baseEntity with name := "d", posX := 1, stiff := 0 }

/-- C3 counterexample: the single unordered pair `{c, d}` — two distinct
dynamic overlapping entities, so not skipped — receives TWO body-body
resolutions with notifications in one collision phase, one per ordered
direction, not exactly one as the claim states. -/
theorem c3_counterexample :
    (phase2 [] [entityC0, entityD0]).2
      = [Event.hitEntity "c" "d", Event.hitEntity "d" "c"] ∧
    (phase2 [] [entityC0, entityD0]).2.length = 2 := by
  have h1 : solvePosition entityC0 entityD0
      = ((entityC0, entityD0), [Event.hitEntity "c" "d"]) := by
    unfold solvePosition solveRotate Entity.invMass entityC0 entityD0 baseEntity
    norm_num [Real.sqrt_one]
  have h2 : solvePosition entityD0 entityC0
      = ((entityD0, entityC0), [Event.hitEntity "d" "c"]) := by
    unfold solvePosition solveRotate Entity.invMass entityC0 entityD0 baseEntity
    norm_num [Real.sqrt_one]
  have hna : entityC0.name = "c" := rfl
  have hnb : entityD0.name = "d" := rfl
  have hcd : ¬ entityC0.name = entityD0.name := by decide
  have hpa1 : runPairs ["c", "d"] ([entityC0, entityD0], []) "c"
      = ([entityC0, entityD0], [Event.hitEntity "c" "d"]) := by
    unfold runPairs
    simp only [List.foldl_cons, List.foldl_nil, eq_self_iff_true, if_true]
    rw [if_neg (by decide : ¬ ("c" : String) = "d")]
    rw [findEntity_pair_fst entityC0 entityD0 hna,
        findEntity_pair_snd entityC0 entityD0 (show entityC0.name ≠ "d" by decide) hnb]
    dsimp only
    rw [h1]
    dsimp only
    rw [setEntity_pair_fst entityC0 entityD0 entityC0 rfl (by decide),
        setEntity_pair_snd entityC0 entityD0 entityD0 (by decide) rfl]
    rfl
  have hpa2 : runPairs ["c", "d"]
        ([entityC0, entityD0], [Event.hitEntity "c" "d"]) "d"
      = ([entityC0, entityD0],
         [Event.hitEntity "c" "d", Event.hitEntity "d" "c"]) := by
    unfold runPairs
    simp only [List.foldl_cons, List.foldl_nil, eq_self_iff_true, if_true]
    rw [if_neg (by decide : ¬ ("d" : String) = "c")]
    rw [findEntity_pair_snd entityC0 entityD0 (show entityC0.name ≠ "d" by decide) hnb,
        findEntity_pair_fst entityC0 entityD0 hna]
    dsimp only
    rw [h2]
    dsimp only
    rw [setEntity_pair_snd entityC0 entityD0 entityD0 (by decide) rfl,
        setEntity_pair_fst entityC0 entityD0 entityC0 rfl (by decide)]
    rfl
  have hres1 : resolveLinks [entityC0, entityD0] "c" = [entityC0, entityD0] :=
    resolveLinks_no_targets _ _ entityC0
      (findEntity_pair_fst entityC0 entityD0 rfl) rfl
  have hres2 : resolveLinks [entityC0, entityD0] "d" = [entityC0, entityD0] :=
    resolveLinks_no_targets _ _ entityD0
      (findEntity_pair_snd entityC0 entityD0 (show entityC0.name ≠ "d" by decide) hnb) rfl
  have hph : (phase2 [] [entityC0, entityD0]).2
      = [Event.hitEntity "c" "d", Event.hitEntity "d" "c"] := by
    unfold phase2
    simp only [List.map_cons, List.map_nil, List.foldl_cons, List.foldl_nil]
    simp only [runGrounds_nil]
    rw [show entityC0.name = "c" from rfl, show entityD0.name = "d" from rfl]
    rw [hpa1]
    dsimp only
    rw [hres1]
    rw [hpa2]
  exact ⟨hph, by rw [hph]; rfl⟩

/-- An entity is pinned at `(x, y)`: zero mass, zero velocity, position
`(x, y)`. -/
def Pinned (x y : ℝ) (e : Entity) : Prop :=
  e.mass = 0 ∧ e.speedX = 0 ∧ e.speedY = 0 ∧ e.posX = x ∧ e.posY = y

/-- A pinned entity whose previous position also equals `(x, y)` — the
mid-tick strengthening established by phase 1. -/
def PinnedPre (x y : ℝ) (e : Entity) : Prop :=
  Pinned x y e ∧ e.prePosX = x ∧ e.prePosY = y

/-- Every entity named `nm` in the pool is pinned at `(x, y)`. -/
def PoolPinned (nm : String) (x y : ℝ) (pool : List Entity) : Prop :=
  ∀ e ∈ pool, e.name = nm → Pinned x y e

/-- Every entity named `nm` in the pool is pinned with previous position
`(x, y)`. -/
def PoolPinnedPre (nm : String) (x y : ℝ) (pool : List Entity) : Prop :=
  ∀ e ∈ pool, e.name = nm → PinnedPre x y e

/-- `solveGroundRotate` writes at most the rotational velocity. -/
theorem solveGroundRotate_shape (e : Entity) (px py : ℝ) :
    ∃ w, solveGroundRotate e px py = { e with rotateSpeed := w } := by
  unfold solveGroundRotate
  dsimp only
  split_ifs
  · exact ⟨_, rfl⟩
  · exact ⟨_, rfl⟩
  · exact ⟨e.rotateSpeed, rfl⟩

/-- A zero-mass entity has inverse mass zero. -/
theorem invMass_zero {e : Entity} (hm : e.mass = 0) : e.invMass = 0 := by
  unfold Entity.invMass
  rw [hm]
  simp

/-- Ground collision leaves a zero-mass entity entirely unchanged (the
`invMass === 0` early return). -/
theorem solveGroundPosition_static (e : Entity) (g : Ground) (hm : e.mass = 0) :
    solveGroundPosition e g = (e, []) := by
  unfold solveGroundPosition
  rw [if_pos (invMass_zero hm)]

/-- `solvePosition` preserves both entities' names. -/
theorem solvePosition_names (s t : Entity) :
    (solvePosition s t).1.1.name = s.name ∧ (solvePosition s t).1.2.name = t.name := by
  unfold solvePosition
  dsimp only
  split_ifs
  · exact ⟨rfl, rfl⟩
  · exact ⟨rfl, rfl⟩
  · obtain ⟨u, v, hr⟩ := solveRotate_shape
      { s with
          posX := s.posX + (t.posX - s.posX)
            * ((Real.sqrt ((t.posX - s.posX) ^ 2 + (t.posY - s.posY) ^ 2)
                  - (s.size + t.size))
                / (Real.sqrt ((t.posX - s.posX) ^ 2 + (t.posY - s.posY) ^ 2)
                    * (s.invMass + t.invMass) + 0.000001) * s.stiff) * s.invMass
          posY := s.posY + (t.posY - s.posY)
            * ((Real.sqrt ((t.posX - s.posX) ^ 2 + (t.posY - s.posY) ^ 2)
                  - (s.size + t.size))
                / (Real.sqrt ((t.posX - s.posX) ^ 2 + (t.posY - s.posY) ^ 2)
                    * (s.invMass + t.invMass) + 0.000001) * s.stiff) * s.invMass }
      { t with
          posX := t.posX - (t.posX - s.posX)
            * ((Real.sqrt ((t.posX - s.posX) ^ 2 + (t.posY - s.posY) ^ 2)
                  - (s.size + t.size))
                / (Real.sqrt ((t.posX - s.posX) ^ 2 + (t.posY - s.posY) ^ 2)
                    * (s.invMass + t.invMass) + 0.000001) * s.stiff) * t.invMass
          posY := t.posY - (t.posY - s.posY)
            * ((Real.sqrt ((t.posX - s.posX) ^ 2 + (t.posY - s.posY) ^ 2)
                  - (s.size + t.size))
                / (Real.sqrt ((t.posX - s.posX) ^ 2 + (t.posY - s.posY) ^ 2)
                    * (s.invMass + t.invMass) + 0.000001) * s.stiff) * t.invMass }
    rw [hr]
    exact ⟨rfl, rfl⟩
  · exact ⟨rfl, rfl⟩

/-- A pinned source entity comes out of `solvePosition` still pinned: the
correction is weighted by its inverse mass, which is zero. -/
theorem solvePosition_pinnedPre_src (s t : Entity) {x y : ℝ}
    (h : PinnedPre x y s) : PinnedPre x y (solvePosition s t).1.1 := by
  obtain ⟨⟨hm, hsx, hsy, hpx, hpy⟩, hqx, hqy⟩ := h
  unfold solvePosition
  dsimp only
  split_ifs
  · exact ⟨⟨hm, hsx, hsy, hpx, hpy⟩, hqx, hqy⟩
  · exact ⟨⟨hm, hsx, hsy, hpx, hpy⟩, hqx, hqy⟩
  · obtain ⟨u, v, hr⟩ := solveRotate_shape _ _
    rw [hr]
    refine ⟨⟨hm, hsx, hsy, ?_, ?_⟩, hqx, hqy⟩
    · show s.posX + _ * s.invMass = x
      rw [invMass_zero hm, hpx]; ring
    · show s.posY + _ * s.invMass = y
      rw [invMass_zero hm, hpy]; ring
  · exact ⟨⟨hm, hsx, hsy, hpx, hpy⟩, hqx, hqy⟩

/-- A pinned target entity comes out of `solvePosition` still pinned. -/
theorem solvePosition_pinnedPre_tgt (s t : Entity) {x y : ℝ}
    (h : PinnedPre x y t) : PinnedPre x y (solvePosition s t).1.2 := by
  obtain ⟨⟨hm, hsx, hsy, hpx, hpy⟩, hqx, hqy⟩ := h
  unfold solvePosition
  dsimp only
  split_ifs
  · exact ⟨⟨hm, hsx, hsy, hpx, hpy⟩, hqx, hqy⟩
  · exact ⟨⟨hm, hsx, hsy, hpx, hpy⟩, hqx, hqy⟩
  · obtain ⟨u, v, hr⟩ := solveRotate_shape _ _
    rw [hr]
    refine ⟨⟨hm, hsx, hsy, ?_, ?_⟩, hqx, hqy⟩
    · show t.posX - _ * t.invMass = x
      rw [invMass_zero hm, hpx]; ring
    · show t.posY - _ * t.invMass = y
      rw [invMass_zero hm, hpy]; ring
  · exact ⟨⟨hm, hsx, hsy, hpx, hpy⟩, hqx, hqy⟩

/-- `solveConnect` preserves both entities' names. -/
theorem solveConnect_names (s t : Entity) (cd cs : ℝ) :
    (solveConnect s t cd cs).1.name = s.name ∧
    (solveConnect s t cd cs).2.name = t.name := by
  unfold solveConnect
  dsimp only
  split_ifs
  · exact ⟨rfl, rfl⟩
  · exact ⟨rfl, rfl⟩

/-- Link resolution weights the displacement by the raw mass, so a
pinned (zero-mass) source entity is not displaced. -/
theorem solveConnect_pinnedPre_src (s t : Entity) (cd cs : ℝ) {x y : ℝ}
    (h : PinnedPre x y s) : PinnedPre x y (solveConnect s t cd cs).1 := by
  obtain ⟨⟨hm, hsx, hsy, hpx, hpy⟩, hqx, hqy⟩ := h
  unfold solveConnect
  dsimp only
  split_ifs
  · exact ⟨⟨hm, hsx, hsy, hpx, hpy⟩, hqx, hqy⟩
  · refine ⟨⟨hm, hsx, hsy, ?_, ?_⟩, hqx, hqy⟩
    · show s.posX + _ * s.mass = x
      rw [hm, hpx]; ring
    · show s.posY + _ * s.mass = y
      rw [hm, hpy]; ring

/-- Link resolution does not displace a pinned (zero-mass) target. -/
theorem solveConnect_pinnedPre_tgt (s t : Entity) (cd cs : ℝ) {x y : ℝ}
    (h : PinnedPre x y t) : PinnedPre x y (solveConnect s t cd cs).2 := by
  obtain ⟨⟨hm, hsx, hsy, hpx, hpy⟩, hqx, hqy⟩ := h
  unfold solveConnect
  dsimp only
  split_ifs
  · exact ⟨⟨hm, hsx, hsy, hpx, hpy⟩, hqx, hqy⟩
  · refine ⟨⟨hm, hsx, hsy, ?_, ?_⟩, hqx, hqy⟩
    · show t.posX - _ * t.mass = x
      rw [hm, hpx]; ring
    · show t.posY - _ * t.mass = y
      rw [hm, hpy]; ring

/-- Ground collision preserves the entity's name. -/
theorem solveGroundPosition_name (e : Entity) (g : Ground) :
    (solveGroundPosition e g).1.name = e.name := by
  unfold solveGroundPosition
  dsimp only
  split_ifs
  · rfl
  · rfl
  · obtain ⟨w, hr⟩ := solveGroundRotate_shape _ _ _
    rw [hr]
  · rfl

/-- A step-local preservation argument lifts to a left fold. -/
theorem foldl_preserve {α σ : Type} (P : σ → Prop) (f : σ → α → σ)
    (h : ∀ s a, P s → P (f s a)) :
    ∀ (l : List α) (s : σ), P s → P (l.foldl f s) := by
  intro l
  induction l with
  | nil => intro s hs; exact hs
  | cons a l ih =>
    intro s hs
    rw [List.foldl_cons]
    exact ih _ (h s a hs)

/-- A successful lookup returns a member of the pool. -/
theorem findEntity_mem {pool : List Entity} {n : String} {e : Entity}
    (hf : findEntity pool n = some e) : e ∈ pool :=
  List.mem_of_find?_eq_some hf

/-- Writing back an entity that is pinned whenever it bears the pinned
name keeps the whole pool pinned. -/
theorem setEntity_poolPinnedPre {nm : String} {x y : ℝ} {pool : List Entity}
    (e' : Entity) (hp : PoolPinnedPre nm x y pool)
    (he : e'.name = nm → PinnedPre x y e') :
    PoolPinnedPre nm x y (setEntity pool e') := by
  intro z hz
  unfold setEntity at hz
  obtain ⟨w, hw, hzw⟩ := List.mem_map.mp hz
  by_cases hc : w.name = e'.name
  · rw [if_pos hc] at hzw
    subst hzw
    exact he
  · rw [if_neg hc] at hzw
    subst hzw
    exact hp w hw

/-- The ground loop keeps a pinned pool pinned: a zero-mass entity takes
the `invMass === 0` early return, everything else is written back with
its own name. -/
theorem runGrounds_pinned {nm : String} {x y : ℝ} (grounds : List Ground)
    (n : String) (st : List Entity × List Event)
    (hst : PoolPinnedPre nm x y st.1) :
    PoolPinnedPre nm x y (runGrounds grounds st n).1 := by
  unfold runGrounds
  apply foldl_preserve
      (fun st : List Entity × List Event => PoolPinnedPre nm x y st.1)
      _ ?_ grounds st hst
  intro st g hstep
  dsimp only
  rcases hfind : findEntity st.1 n with _ | e
  · exact hstep
  · dsimp only
    by_cases hen : e.name = nm
    · have hpe := hstep e (findEntity_mem hfind) hen
      rw [solveGroundPosition_static e g hpe.1.1]
      exact setEntity_poolPinnedPre e hstep (fun _ => hpe)
    · apply setEntity_poolPinnedPre _ hstep
      intro hn
      rw [solveGroundPosition_name e g] at hn
      exact absurd hn hen

/-- The body-body loop keeps a pinned pool pinned: zero-mass entities are
displaced by `inverseMass = 0` times the correction. -/
theorem runPairs_pinned {nm : String} {x y : ℝ} (names : List String)
    (n : String) (st : List Entity × List Event)
    (hst : PoolPinnedPre nm x y st.1) :
    PoolPinnedPre nm x y (runPairs names st n).1 := by
  unfold runPairs
  apply foldl_preserve
      (fun st : List Entity × List Event => PoolPinnedPre nm x y st.1)
      _ ?_ names st hst
  intro st m hstep
  dsimp only
  by_cases hcm : n = m
  · rw [if_pos hcm]
    exact hstep
  · rw [if_neg hcm]
    rcases hfs : findEntity st.1 n with _ | s
    · rcases hft : findEntity st.1 m with _ | t
      · exact hstep
      · exact hstep
    · rcases hft : findEntity st.1 m with _ | t
      · exact hstep
      · dsimp only
        apply setEntity_poolPinnedPre
        · apply setEntity_poolPinnedPre _ hstep
          intro hn
          rw [(solvePosition_names s t).1] at hn
          exact solvePosition_pinnedPre_src s t
            (hstep s (findEntity_mem hfs) hn)
        · intro hn
          rw [(solvePosition_names s t).2] at hn
          exact solvePosition_pinnedPre_tgt s t
            (hstep t (findEntity_mem hft) hn)

/-- One link step keeps a pinned pool pinned: link pruning only touches
the link list, and `solveConnect` weights by the raw (zero) mass. -/
theorem runLink_pinned {nm : String} {x y : ℝ} (n : String) (d : Target)
    (pool : List Entity) (hp : PoolPinnedPre nm x y pool) :
    PoolPinnedPre nm x y (runLink pool n d) := by
  unfold runLink
  rcases hft : findEntity pool d.name with _ | t
  · rcases hfn : findEntity pool n with _ | cur
    · exact hp
    · dsimp only
      apply setEntity_poolPinnedPre _ hp
      intro hn
      have hcn : cur.name = nm := hn
      exact hp cur (findEntity_mem hfn) hcn
  · rcases hfn : findEntity pool n with _ | s
    · exact hp
    · dsimp only
      apply setEntity_poolPinnedPre
      · apply setEntity_poolPinnedPre _ hp
        intro hn
        rw [(solveConnect_names s t d.distance d.stiff).1] at hn
        exact solveConnect_pinnedPre_src s t d.distance d.stiff
          (hp s (findEntity_mem hfn) hn)
      · intro hn
        rw [(solveConnect_names s t d.distance d.stiff).2] at hn
        exact solveConnect_pinnedPre_tgt s t d.distance d.stiff
          (hp t (findEntity_mem hft) hn)

/-- The whole constraint loop keeps a pinned pool pinned. -/
theorem resolveLinks_pinned {nm : String} {x y : ℝ} (n : String)
    (pool : List Entity) (hp : PoolPinnedPre nm x y pool) :
    PoolPinnedPre nm x y (resolveLinks pool n) := by
  unfold resolveLinks
  rcases hfn : findEntity pool n with _ | e
  · exact hp
  · dsimp only
    exact foldl_preserve (PoolPinnedPre nm x y) _
      (fun p d hpd => runLink_pinned n d p hpd) e.targets pool hp

/-- Phase 2 keeps a pinned pool pinned. -/
theorem phase2_pinned {nm : String} {x y : ℝ} (grounds : List Ground)
    (pool : List Entity) (hp : PoolPinnedPre nm x y pool) :
    PoolPinnedPre nm x y (phase2 grounds pool).1 := by
  unfold phase2
  dsimp only
  apply foldl_preserve
      (fun st : List Entity × List Event => PoolPinnedPre nm x y st.1)
      _ ?_ _ (pool, []) hp
  intro st n hst
  dsimp only
  exact resolveLinks_pinned n _ (runPairs_pinned _ n _ (runGrounds_pinned grounds n st hst))

/-- Phase 1 turns a pinned pool into a pinned pool whose previous
positions also sit at the pin: integration moves by `velocity * dt = 0`
and `savePosition` copies the position. -/
theorem phase1_pinned {nm : String} {x y : ℝ} (pps : ℝ) (pool : List Entity)
    (hp : PoolPinned nm x y pool) :
    PoolPinnedPre nm x y (phase1 pps pool) := by
  intro z hz hzn
  unfold phase1 at hz
  obtain ⟨w, hw, rfl⟩ := List.mem_map.mp hz
  have hwn : w.name = nm := hzn
  obtain ⟨hm, hsx, hsy, hpx, hpy⟩ := hp w hw hwn
  unfold updateRotate updatePosition Entity.savePosition
  dsimp only
  refine ⟨⟨hm, hsx, hsy, ?_, ?_⟩, hpx, hpy⟩
  · show w.posX + w.speedX * (1 / pps) = x
    rw [hpx, hsx]; ring
  · show w.posY + w.speedY * (1 / pps) = y
    rw [hpy, hsy]; ring

/-- Phase 3 restores the plain pinned state: velocity is reconstructed
from a zero position delta, gravity is skipped for zero mass, and
damping keeps zero at zero. -/
theorem phase3_pinned {nm : String} {x y : ℝ} (pps gravity friction : ℝ)
    (pool : List Entity) (hp : PoolPinnedPre nm x y pool) :
    PoolPinned nm x y (phase3 pps gravity friction pool).1 := by
  intro z hz hzn
  unfold phase3 at hz
  dsimp only at hz
  obtain ⟨w, hw, rfl⟩ := List.mem_map.mp hz
  have hwn : w.name = nm := hzn
  obtain ⟨⟨hm, hsx, hsy, hpx, hpy⟩, hqx, hqy⟩ := hp w hw hwn
  unfold phase3Entity solveSpeed updateSpeed
  dsimp only
  refine ⟨?_, ?_, ?_, ?_, ?_⟩ <;> simp [hm, hpx, hpy, hqx, hqy]

/-- One whole tick keeps a pinned (zero-mass, zero-velocity) entity
exactly where it is. -/
theorem tick_pinned (pps gravity friction : ℝ) (grounds : List Ground)
    (pool : List Entity) (nm : String) (x y : ℝ)
    (hp : PoolPinned nm x y pool) :
    PoolPinned nm x y (tick pps gravity friction grounds pool).1 := by
  unfold tick
  dsimp only
  exact phase3_pinned pps gravity friction _
    (phase2_pinned grounds _ (phase1_pinned pps pool hp))

/-- C2 amended: an entity with zero mass AND zero velocity keeps its
exact position over any number of ticks of the physics phases — ground
collision, body-body collision, link resolution and gravity never move it
(collisions weight by the zero inverse mass, links by the zero raw
mass, gravity is skipped for zero mass), and integration moves it by
`velocity * dt = 0`; moreover link resolution, weighting by raw mass,
displaces ANY zero-mass entity by exactly zero, so a link cannot displace
a static entity either — only a nonzero velocity (via integration) can,
as the counterexample shows. -/
theorem c2_static_rest_fixed (pps gravity friction : ℝ)
    (grounds : List Ground) (pool : List Entity) (nm : String) (x y : ℝ)
    (n : Nat) (hp : PoolPinned nm x y pool) :
    PoolPinned nm x y (ticks pps gravity friction grounds n pool) ∧
    (∀ (s t : Entity) (cd cs : ℝ), s.mass = 0 →
      (solveConnect s t cd cs).1.posX = s.posX ∧
      (solveConnect s t cd cs).1.posY = s.posY) := by
  constructor
  · induction n generalizing pool with
    | zero => exact hp
    | succ k ih =>
      exact ih _ (tick_pinned pps gravity friction grounds pool nm x y hp)
  · intro s t cd cs hm
    unfold solveConnect
    dsimp only
    split_ifs
    · exact ⟨rfl, rfl⟩
    · constructor
      · show s.posX + _ * s.mass = s.posX
        rw [hm]; ring
      · show s.posY + _ * s.mass = s.posY
        rw [hm]; ring

/-- A zero-mass anchor entity at rest at `(2, 3)`. -/
noncomputable def anchorE : Entity :=
  { baseEntity with name := "s", mass := 0, posX := 2, posY := 3 }

/-- C2 witness: the anchor stays pinned at `(2, 3)` across two ticks. -/
theorem c2_static_rest_fixed_witness :
    PoolPinned "s" 2 3 [anchorE] ∧
    PoolPinned "s" 2 3 (ticks 90 500 0.001 [] 2 [anchorE]) := by
  have hp : PoolPinned "s" 2 3 [anchorE] := by
    intro e he _
    rw [List.mem_singleton] at he
    subst he
    exact ⟨rfl, rfl, rfl, rfl, rfl⟩
  exact ⟨hp, (c2_static_rest_fixed 90 500 0.001 [] [anchorE] "s" 2 3 2 hp).1⟩

/-- A zero-mass entity at the origin with horizontal velocity 1 and no
links. -/
noncomputable def movingStatic : Entity :=
  { baseEntity with name := "m", mass := 0, speedX := 1 }

/-- C2 counterexample: in a world with no grounds, no other entities and
no links at all, one tick displaces the zero-mass entity from x = 0 to
x = 1/90 — the displacement comes from integration of its velocity, not
from link resolution — so "ticks never change its position through
integration" is false, and the only mechanism that the claim allows
(link resolution) is not even involved. -/
theorem c2_counterexample :
    movingStatic.mass = 0 ∧ movingStatic.targets = [] ∧ movingStatic.posX = 0 ∧
    ((tick 90 500 0.001 [] [movingStatic]).1.map Entity.posX) = [1 / 90] ∧
    (1 / 90 : ℝ) ≠ 0 := by
  refine ⟨rfl, rfl, rfl, ?_, by norm_num⟩
  have hpairs : runPairs [(updateRotate 90 (updatePosition 90 movingStatic)).name]
        ([updateRotate 90 (updatePosition 90 movingStatic)], ([] : List Event))
        (updateRotate 90 (updatePosition 90 movingStatic)).name
      = ([updateRotate 90 (updatePosition 90 movingStatic)], ([] : List Event)) := by
    unfold runPairs
    simp only [List.foldl_cons, List.foldl_nil, eq_self_iff_true, if_true]
  have hres : resolveLinks [updateRotate 90 (updatePosition 90 movingStatic)]
        (updateRotate 90 (updatePosition 90 movingStatic)).name
      = [updateRotate 90 (updatePosition 90 movingStatic)] :=
    resolveLinks_no_targets _ _ (updateRotate 90 (updatePosition 90 movingStatic))
      (by
        unfold findEntity
        rw [List.find?_cons_of_pos _ (by simp)])
      rfl
  have hph2 : phase2 [] (phase1 90 [movingStatic])
      = (phase1 90 [movingStatic], []) := by
    rw [show phase1 90 [movingStatic]
          = [updateRotate 90 (updatePosition 90 movingStatic)] from rfl]
    unfold phase2
    simp only [List.map_cons, List.map_nil, List.foldl_cons, List.foldl_nil]
    rw [runGrounds_nil, hpairs]
    dsimp only
    rw [hres]
  show ((tick 90 500 0.001 [] [movingStatic]).1.map Entity.posX) = [1 / 90]
  unfold tick
  dsimp only
  rw [hph2]
  dsimp only
  unfold phase3
  dsimp only
  show [(phase3Entity 90 500 0.001 (updateRotate 90 (updatePosition 90 movingStatic))).posX]
      = [1 / 90]
  have hpos : (phase3Entity 90 500 0.001
      (updateRotate 90 (updatePosition 90 movingStatic))).posX
      = movingStatic.posX + movingStatic.speedX * (1 / 90) := rfl
  rw [hpos]
  unfold movingStatic baseEntity
  norm_num

end Mario
